import Mathlib

/-!
# Verification of dbtenv's version-resolution and compatibility-matching engine

This file gives a shallow embedding, in Lean 4, of the version-resolution
core of the `dbtenv` repository, and proves/refutes the frozen claims about
it.

The repository snapshot contains two variants of the engine:

* the "older" variant: `dbtenv/__init__.py` (class `Version`, a subclass of
  `distutils.version.LooseVersion`) and `dbtenv/version.py` (the resolution
  stages `get_version`, `try_get_project_version`, `get_max_version`,
  `try_get_max_compatible_version`, `VersionRequirement`, ...);
* the "newer" variant: `dbtenv/dbtenv/__init__.py` and
  `dbtenv/dbtenv/version.py`.

Note on the snapshot's internal skew: `dbtenv/version.py` constructs versions
through the keyword interface `Version(adapter_type=..., version=...,
source=..., source_description=...)`, which is the constructor signature of
the `Version` class in `dbtenv/dbtenv/__init__.py` (the class in
`dbtenv/__init__.py` takes a single positional version string).  The
resolution stacks below therefore construct versions through that keyword
interface (modelled by `NVersion`), while the positional-string class of
`dbtenv/__init__.py` is embedded separately (`OldVersion`) for the claims
that cite its `_cmp`/`__hash__`.

Strings are modelled by Lean `String`, manipulated through their underlying
`List Char`; Python string comparison is code-point lexicographic, as
implemented by `strCmpL` below.  All inputs of interest (environment-variable
values, first lines of marker files, requirement strings) are single-line
ASCII text; regular expressions are embedded as executable functions on
character lists, with `.` treated as "any character except a newline".
-/

namespace Dbtenv

/-! ## Character classes and Python string comparison -/

/-- ASCII decimal digit, the `\d` / `[0-9]` character class for the inputs at
hand (single-line ASCII text); code points 48-57. -/
def isDigitChar (c : Char) : Bool := 48 ≤ c.toNat && c.toNat ≤ 57

/-- The `[a-z]` character class; code points 97-122. -/
def isLowerChar (c : Char) : Bool := 97 ≤ c.toNat && c.toNat ≤ 122

/-- Comparison of two characters by code point, as Python compares the
characters of a `str`. -/
def charCmp (a b : Char) : Ordering :=
  if a.toNat < b.toNat then .lt
  else if b.toNat < a.toNat then .gt
  else .eq

/-- Lexicographic comparison of character lists: Python's `<`/`==`/`>` on
`str`. -/
def strCmpL : List Char → List Char → Ordering
  | [], [] => .eq
  | [], _ :: _ => .lt
  | _ :: _, [] => .gt
  | a :: as, b :: bs =>
    match charCmp a b with
    | .eq => strCmpL as bs
    | o => o

/-- Python string comparison on Lean strings. -/
def strCmp (a b : String) : Ordering := strCmpL a.data b.data

/-- Python's `str.startswith`: prefix test on the underlying characters. -/
def strStartsWith (s p : String) : Bool := p.data.isPrefixOf s.data

/-- Python whitespace for `str.strip()` (ASCII subset; the inputs at hand
contain at most spaces, tabs and the trailing newline of `readline`). -/
def isSpaceChar (c : Char) : Bool :=
  c = ' ' || c = '\t' || c = '\n' || c = '\r' || c = '\x0b' || c = '\x0c'

/-- Python `str.strip()`. -/
def pyStrip (s : String) : String :=
  String.mk (((s.data.dropWhile isSpaceChar).reverse.dropWhile isSpaceChar).reverse)

/-- Truthiness of a Python `Optional[str]`: `None` and the empty string are
falsy. -/
def pyTruthy : Option String → Bool
  | none => false
  | some s => s ≠ ""

/-! ## `distutils.version.LooseVersion`

`LooseVersion.parse` splits a version string with the pattern
`(\d+ | [a-z]+ | \.)`, drops the `'.'` separators and empty pieces, and
converts the pure-digit pieces to `int`.  A component is therefore either a
number or a string (a run of `[a-z]` letters, or a maximal run of characters
matched by none of the three alternatives). -/

/-- One component of a parsed `LooseVersion`. -/
inductive LComp where
  | num : Nat → LComp
  | str : String → LComp
deriving DecidableEq, Repr

/-- Value of a run of ASCII digits (Python `int()` of the piece; leading
zeros collapse, e.g. `"03"` becomes `3`). -/
def digitsToNat (l : List Char) : Nat :=
  l.foldl (fun n c => n * 10 + (c.toNat - 48)) 0

/-- A character matched by none of the three alternatives of
`LooseVersion`'s component pattern. -/
def isOtherChar (c : Char) : Bool := !isDigitChar c && !isLowerChar c && c ≠ '.'

theorem dropWhile_length_le (p : α → Bool) (l : List α) :
    (l.dropWhile p).length ≤ l.length := by
  induction l with
  | nil => simp [List.dropWhile]
  | cons a as ih =>
    simp only [List.dropWhile]
    cases p a
    · simp
    · simp only [List.length_cons]
      omega

/-- The scanning loop of `LooseVersion.parse`, with explicit fuel making the
recursion structural (every step consumes at least the head character, so
`length` fuel suffices; see `tokenizeF_fuel_irrel`). -/
def tokenizeF : Nat → List Char → List LComp
  | 0, _ => []
  | _, [] => []
  | fuel + 1, c :: cs =>
    if isDigitChar c then
      .num (digitsToNat (c :: cs.takeWhile isDigitChar)) ::
        tokenizeF fuel (cs.dropWhile isDigitChar)
    else if isLowerChar c then
      .str (String.mk (c :: cs.takeWhile isLowerChar)) ::
        tokenizeF fuel (cs.dropWhile isLowerChar)
    else if c = '.' then
      tokenizeF fuel cs
    else
      .str (String.mk (c :: cs.takeWhile isOtherChar)) ::
        tokenizeF fuel (cs.dropWhile isOtherChar)

theorem tokenizeF_fuel_irrel : ∀ (n m : Nat) (l : List Char),
    l.length ≤ n → l.length ≤ m → tokenizeF n l = tokenizeF m l := by
  intro n
  induction n with
  | zero =>
    intro m l hn _
    rw [Nat.le_zero, List.length_eq_zero] at hn
    subst hn
    cases m <;> rfl
  | succ n ih =>
    intro m l hn hm
    cases l with
    | nil => cases m <;> rfl
    | cons c cs =>
      cases m with
      | zero => simp at hm
      | succ m' =>
        simp only [List.length_cons, Nat.add_le_add_iff_right] at hn hm
        have hd := dropWhile_length_le isDigitChar cs
        have hl := dropWhile_length_le isLowerChar cs
        have ho := dropWhile_length_le isOtherChar cs
        simp only [tokenizeF]
        split_ifs <;>
          first
            | rw [ih m' (cs.dropWhile isDigitChar) (by omega) (by omega)]
            | rw [ih m' (cs.dropWhile isLowerChar) (by omega) (by omega)]
            | rw [ih m' (cs.dropWhile isOtherChar) (by omega) (by omega)]
            | rw [ih m' cs (by omega) (by omega)]

/-- `LooseVersion.parse`: split into numeric components, letter runs and
runs of unmatched characters, dropping the dots. -/
def tokenize (l : List Char) : List LComp := tokenizeF l.length l

/-- One scanning step of `tokenize`. -/
theorem tokenize_cons (c : Char) (cs : List Char) :
    tokenize (c :: cs) =
      if isDigitChar c then
        .num (digitsToNat (c :: cs.takeWhile isDigitChar)) ::
          tokenize (cs.dropWhile isDigitChar)
      else if isLowerChar c then
        .str (String.mk (c :: cs.takeWhile isLowerChar)) ::
          tokenize (cs.dropWhile isLowerChar)
      else if c = '.' then
        tokenize cs
      else
        .str (String.mk (c :: cs.takeWhile isOtherChar)) ::
          tokenize (cs.dropWhile isOtherChar) := by
  show tokenizeF (c :: cs).length (c :: cs) = _
  simp only [List.length_cons, tokenizeF]
  unfold tokenize
  split_ifs <;>
    first
      | rfl
      | rw [tokenizeF_fuel_irrel cs.length (cs.dropWhile isDigitChar).length
          (cs.dropWhile isDigitChar) (dropWhile_length_le ..) (Nat.le_refl _)]
      | rw [tokenizeF_fuel_irrel cs.length (cs.dropWhile isLowerChar).length
          (cs.dropWhile isLowerChar) (dropWhile_length_le ..) (Nat.le_refl _)]
      | rw [tokenizeF_fuel_irrel cs.length (cs.dropWhile isOtherChar).length
          (cs.dropWhile isOtherChar) (dropWhile_length_le ..) (Nat.le_refl _)]

/-- Python `==` on two components: `int == str` is `False`, never an error. -/
def lcompEqb : LComp → LComp → Bool
  | .num a, .num b => a == b
  | .str a, .str b => a == b
  | _, _ => false

/-- Python `<`/`>` on two components: comparing an `int` with a `str` raises
`TypeError`, modelled by `Except.error`. -/
def lcompCmp : LComp → LComp → Except Unit Ordering
  | .num a, .num b => .ok (if a < b then .lt else if b < a then .gt else .eq)
  | .str a, .str b => .ok (strCmp a b)
  | _, _ => .error ()

/-- `LooseVersion._cmp`: Python list comparison of the component lists.
Equal prefixes are skipped (element equality over mixed types is `False`,
not an error); at the first differing pair the order comes from `<`, which
raises `TypeError` on an `int`/`str` pair; a strict prefix is smaller. -/
def looseCmp : List LComp → List LComp → Except Unit Ordering
  | [], [] => .ok .eq
  | [], _ :: _ => .ok .lt
  | _ :: _, [] => .ok .gt
  | a :: as, b :: bs =>
    if lcompEqb a b then looseCmp as bs else lcompCmp a b

/-! ## The regular expressions of the engine, as executable matchers -/

/-- The optional group `(-?(?P<prerelease>[a-z].*))?` of the
semantic-version pattern, applied to the text after the numeric triple: an
optional hyphen is consumed only when a lowercase letter follows (the
greedy group gives the hyphen back otherwise), the prerelease starts with
that letter, and `.*` extends to the end of the line. -/
def preTail (rest : List Char) : Option (List Char) :=
  match rest with
  | [] => none
  | c :: t =>
    if c = '-' then
      match t with
      | [] => none
      | c2 :: t2 =>
        if isLowerChar c2 then some (c2 :: t2.takeWhile (· ≠ '\n')) else none
    else
      if isLowerChar c then some (c :: t.takeWhile (· ≠ '\n')) else none

/-- The semantic-version pattern used by both `Version.__init__` variants,
`re.match(r'(?P<version>\d+\.\d+\.\d+)(-?(?P<prerelease>[a-z].*))?', v)`:
anchored at the start only (trailing text that does not start a prerelease
group is simply left unmatched).  Returns the `version` group and the
optional `prerelease` group; the three numeric components are maximal digit
runs. -/
def matchSemver (l : List Char) : Option (List Char × Option (List Char)) :=
  let d1 := l.takeWhile isDigitChar
  if d1.isEmpty then none else
  match l.dropWhile isDigitChar with
  | '.' :: r2 =>
    let d2 := r2.takeWhile isDigitChar
    if d2.isEmpty then none else
    match r2.dropWhile isDigitChar with
    | '.' :: r4 =>
      let d3 := r4.takeWhile isDigitChar
      if d3.isEmpty then none else
      let version := d1 ++ '.' :: d2 ++ '.' :: d3
      some (version, preTail (r4.dropWhile isDigitChar))
    | _ => none
  | _ => none

/-- The compound pip-specifier pattern of the newer variant,
`re.search(r"^(dbt-.+)==(.+)$", s)`: the whole (newline-free) string is
`dbt-<name-rest>==<version>` with both groups non-empty; the first group is
greedy, so the split is at the last `==` that leaves a non-empty version.
Returns the two groups `(name, version)`. -/
def matchPip (l : List Char) : Option (List Char × List Char) :=
  if l.contains '\n' then none else
  ((List.range (l.length + 1)).filterMap fun i =>
    let a := l.take i
    match l.drop i with
    | '=' :: '=' :: c =>
      if c.isEmpty then none
      else match a with
        | 'd' :: 'b' :: 't' :: '-' :: r => if r.isEmpty then none else some (a, c)
        | _ => none
    | _ => none).getLast?

/-- The bare-version pattern of the newer variant,
`re.search(r"^[0-9\.]+[a-z0-9]*$", s)`: the string splits into a non-empty
prefix of digits and dots followed by a suffix of lowercase letters and
digits. -/
def matchBare (l : List Char) : Bool :=
  (List.range l.length).any fun i =>
    (l.take (i + 1)).all (fun c => isDigitChar c || c = '.') &&
    (l.drop (i + 1)).all (fun c => isLowerChar c || isDigitChar c)

/-- An operator character of the requirement pattern. -/
def isOpChar (c : Char) : Bool := c = '<' || c = '>' || c = '='

/-- The greedy `.+` at the end of the requirement pattern: the longest
newline-free prefix at the current position, which must be non-empty. -/
def dotPlus (l : List Char) : Option (List Char) :=
  let v := l.takeWhile (· ≠ '\n')
  if v.isEmpty then none else some v

/-- `VersionRequirement.__init__`'s pattern
`re.match(r'(?P<operator>[<>=]=?)?(?P<version>.+)', requirement)`: the
optional operator group is matched greedily (a two-character operator first,
then a single character, then none), backtracking so that the version group
can still match at least one character.  Note `=` alone is an accepted
operator, and any leftover text is an accepted version.  Returns the
operator group (if matched) and the version group; `none` models a failed
match, on which the Python code raises (`None` is not subscriptable). -/
def parseReq (l : List Char) : Option (Option String × List Char) :=
  match l with
  | c1 :: c2 :: rest =>
    if isOpChar c1 && c2 = '=' then
      match dotPlus rest with
      | some v => some (some (String.mk [c1, c2]), v)
      | none =>
        match dotPlus (c2 :: rest) with
        | some v => some (some (String.mk [c1]), v)
        | none => (dotPlus l).map (fun v => (none, v))
    else if isOpChar c1 then
      match dotPlus (c2 :: rest) with
      | some v => some (some (String.mk [c1]), v)
      | none => (dotPlus l).map (fun v => (none, v))
    else
      (dotPlus l).map (fun v => (none, v))
  | [c1] =>
    -- a one-character operator would leave nothing for `.+`, so the
    -- operator group backtracks to matching nothing
    (dotPlus [c1]).map (fun v => (none, v))
  | [] => none

/-! ## Python exceptions that the engine can raise -/

/-- The exceptions reachable in the embedded code: `DbtenvError` (with its
message), `AttributeError` (attribute access on `None`, or `.groups()` on a
failed match), the bare `Exception` of the newer `Version.__init__`, and
`IndexError` (`sorted([])[-1]`). -/
inductive PyErr where
  | dbtenvError : String → PyErr
  | attributeError : PyErr
  | exception : PyErr
  | indexError : PyErr
deriving DecidableEq, Repr

/-! ## The `Version` class of `dbtenv/__init__.py` (`OldVersion`) -/

/-- Falsiness of an optional string (`not source_description`): `None` and
the empty string are falsy. -/
def descFalsy : Option String → Bool
  | none => true
  | some s => s = ""

/-- The shared idiom `if source and not source_description:
source_description = f"set by {source}"`. -/
def applySourceSetter (source_description source : Option String) : Option String :=
  if pyTruthy source && descFalsy source_description then
    some ("set by " ++ source.getD "")
  else source_description

/-- The `Version` of `dbtenv/__init__.py`: constructed from one version
string; comparison is `LooseVersion` comparison of the parsed `pypi_version`
with a fallback to whole-string comparison when the component comparison
raises `TypeError`. -/
structure OldVersion where
  raw_version : String
  pypi_version : String
  homebrew_version : String
  source : Option String
  source_description : Option String
  is_semantic : Bool
  is_stable : Bool
  /-- `LooseVersion`'s parsed component list of `pypi_version` (set by
  `super().__init__(self.pypi_version)`). -/
  components : List LComp
deriving DecidableEq, Repr

/-- `Version.__init__` of `dbtenv/__init__.py`. -/
def mkOldVersion (version : String) (source source_description : Option String) :
    OldVersion :=
  let raw := pyStrip version
  let source_description := applySourceSetter source_description source
  match matchSemver raw.data with
  | some (ver, some pre) =>
    { raw_version := raw
      pypi_version := String.mk (ver ++ pre)
      homebrew_version := String.mk (ver ++ '-' :: pre)
      source, source_description
      is_semantic := true
      is_stable := false
      components := tokenize (ver ++ pre) }
  | some (_, none) =>
    { raw_version := raw, pypi_version := raw, homebrew_version := raw
      source, source_description
      is_semantic := true, is_stable := true
      components := tokenize raw.data }
  | none =>
    { raw_version := raw, pypi_version := raw, homebrew_version := raw
      source, source_description
      is_semantic := false, is_stable := false
      components := tokenize raw.data }

/-- `Version._cmp` of `dbtenv/__init__.py`: `LooseVersion._cmp` on the
component lists, falling back (bare `except`) to comparing the whole
`pypi_version` strings when the component comparison raises. -/
def oldCmp (v w : OldVersion) : Ordering :=
  match looseCmp v.components w.components with
  | .ok o => o
  | .error _ => strCmp v.pypi_version w.pypi_version

def oldLt (v w : OldVersion) : Bool := oldCmp v w = .lt

def oldGt (v w : OldVersion) : Bool := oldCmp v w = .gt

def oldEq (v w : OldVersion) : Bool := oldCmp v w = .eq

/-- `Version.__hash__` of `dbtenv/__init__.py` hashes the `pypi_version`
string.  Python guarantees that equal strings hash equally, and the distinct
strings arising below hash differently; the hash is therefore modelled
injectively by the string itself. -/
def oldHash (v : OldVersion) : String := v.pypi_version

/-! ## The `Version` class of `dbtenv/dbtenv/__init__.py` (`NVersion`) -/

/-- Python `name.replace("dbt-", "")`: remove every (non-overlapping,
left-to-right) occurrence of `"dbt-"`. -/
def replaceDbtDash : List Char → List Char
  | 'd' :: 'b' :: 't' :: '-' :: rest => replaceDbtDash rest
  | c :: rest => c :: replaceDbtDash rest
  | [] => []

/-- The `Version` of `dbtenv/dbtenv/__init__.py`: constructed either from a
full pip specifier or from an adapter type plus version string.  Its `_cmp`
fully overrides the `LooseVersion` one, so the base class's parsed
components play no role in comparisons and are not recorded here. -/
structure NVersion where
  pip_specifier : String
  name : String
  adapter_type : String
  pypi_version : String
  source : Option String
  source_description : Option String
  is_semantic : Bool
  is_stable : Bool
  major_minor_patch : Option String
  prerelease : Option String
deriving DecidableEq, Repr

/-- The common tail of `Version.__init__` of `dbtenv/dbtenv/__init__.py`:
the `source` property setter (which backfills `source_description`), the
semantic-version match on the initial `pypi_version`, and the prerelease
recompaction `f"{version}{prerelease}"`. -/
def mkNVersionCore (pip_specifier name adapter_type pypi0 : String)
    (source source_description : Option String) : NVersion :=
  let source_description := applySourceSetter source_description source
  match matchSemver pypi0.data with
  | some (ver, some pre) =>
    { pip_specifier, name, adapter_type
      pypi_version := String.mk (ver ++ pre)
      source, source_description
      is_semantic := true, is_stable := false
      major_minor_patch := some (String.mk ver)
      prerelease := some (String.mk pre) }
  | some (ver, none) =>
    { pip_specifier, name, adapter_type
      pypi_version := pypi0
      source, source_description
      is_semantic := true, is_stable := true
      major_minor_patch := some (String.mk ver)
      prerelease := none }
  | none =>
    { pip_specifier, name, adapter_type
      pypi_version := pypi0
      source, source_description
      is_semantic := false, is_stable := false
      major_minor_patch := none, prerelease := none }

/-- `Version.__init__` of `dbtenv/dbtenv/__init__.py`, adapter-type branch:
`name = f"dbt-{adapter_type}"` always satisfies the `startswith('dbt')`
guard, so this branch never raises. -/
def mkNVersionFromAdapter (adapter_type version : String)
    (source source_description : Option String) : NVersion :=
  let name := "dbt-" ++ adapter_type
  mkNVersionCore (name ++ "==" ++ version) name adapter_type version
    source source_description

/-- `Version.__init__` of `dbtenv/dbtenv/__init__.py`, pip-specifier branch:
`re.match(r"^(dbt-.+)==(.+)$", pip_specifier).groups()` raises
`AttributeError` when the pattern does not match; a matching name starts
with `"dbt-"`, so the `startswith('dbt')` guard then passes. -/
def mkNVersionFromPip (pip_specifier : String) (source source_description : Option String) :
    Except PyErr NVersion :=
  match matchPip pip_specifier.data with
  | none => .error .attributeError
  | some (nameChars, verChars) =>
    .ok (mkNVersionCore pip_specifier (String.mk nameChars)
      (String.mk (replaceDbtDash nameChars)) (String.mk verChars)
      source source_description)

/-- `Version._cmp` of `dbtenv/dbtenv/__init__.py`: order by `name`
(string comparison), then by `pypi_version` (string comparison). -/
def nvCmp (v w : NVersion) : Ordering :=
  match strCmp v.name w.name with
  | .lt => .lt
  | .gt => .gt
  | .eq => strCmp v.pypi_version w.pypi_version

def nvLt (v w : NVersion) : Bool := nvCmp v w = .lt

def nvLe (v w : NVersion) : Bool := nvCmp v w ≠ .gt

def nvGt (v w : NVersion) : Bool := nvCmp v w = .gt

def nvGe (v w : NVersion) : Bool := nvCmp v w ≠ .lt

def nvEq (v w : NVersion) : Bool := nvCmp v w = .eq

/-! ## `VersionRequirement` (`dbtenv/version.py` and
`dbtenv/dbtenv/version.py`, identical text) -/

structure VersionRequirement where
  requirement : String
  operator : String
  version : NVersion
  source : String
deriving DecidableEq, Repr

/-- `VersionRequirement.__init__`: split the requirement with `parseReq`
(`none` models the raised error on a failed match, which callers catch);
a missing operator group defaults to `"=="`; the version part is parsed with
the keyword `Version(adapter_type=..., version=...)` constructor. -/
def mkVersionRequirement (adapter_type requirement source : String) :
    Option VersionRequirement :=
  match parseReq requirement.data with
  | none => none
  | some (op, ver) =>
    some { requirement
           operator := op.getD "=="
           version := mkNVersionFromAdapter adapter_type (String.mk ver) none none
           source }

/-- `VersionRequirement.is_compatible_with`: note that any operator text
other than the four relational symbols (including the single `=` that the
pattern admits) falls into the final equality branch. -/
def is_compatible_with (r : VersionRequirement) (version : NVersion) : Bool :=
  if r.operator = "<" then nvLt version r.version
  else if r.operator = "<=" then nvLe version r.version
  else if r.operator = ">" then nvGt version r.version
  else if r.operator = ">=" then nvGe version r.version
  else nvEq version r.version

/-! ## `get_max_version` and `try_get_max_compatible_version` -/

/-- `sorted(versions)[-1]` for a version list: Python's stable sort places
the elements of the maximal equivalence class (under `_cmp`) at the end in
their original order, so the last element of the sorted list is the last
listed element that is greater than or equal to every other.  Computed by a
left fold that keeps the current maximum and replaces it whenever a later
element is not strictly below it. -/
def sortedLast (versions : List NVersion) : Option NVersion :=
  versions.foldl
    (fun acc v =>
      match acc with
      | none => some v
      | some m => if nvLt v m then some m else some v)
    none

/-- `get_max_version` (identical in both variants): the maximum of the
stable versions if any version is stable, otherwise the maximum of all;
`sorted([])[-1]` on an empty collection raises `IndexError`. -/
def get_max_version (versions : List NVersion) : Except PyErr NVersion :=
  let stable_versions := versions.filter (·.is_stable)
  match sortedLast (if stable_versions.isEmpty then versions else stable_versions) with
  | some v => .ok v
  | none => .error .indexError

/-- The compatibility filter of `try_get_max_compatible_version`. -/
def isCompatibleCandidate (requirements : List VersionRequirement) (v : NVersion) : Bool :=
  v.is_semantic && requirements.all (fun r => is_compatible_with r v)

/-- `try_get_max_compatible_version` (identical in both variants): keep the
semantic versions satisfying every requirement, and return their
`get_max_version`, or `None` if no version qualifies.  `get_max_version` is
only called on a non-empty list here and cannot raise (the error arm is
unreachable). -/
def try_get_max_compatible_version (versions : List NVersion)
    (requirements : List VersionRequirement) : Option NVersion :=
  let compatible_versions := versions.filter (isCompatibleCandidate requirements)
  if compatible_versions.isEmpty then none
  else
    match get_max_version compatible_versions with
    | .ok v => some v
    | .error _ => none

/-! ## Path operations (`os.path`, POSIX flavour) -/

/-- `os.path.join(dir, name)` for a relative `name` (the only use here:
joining a directory with a marker file name). -/
def osJoin (dir name : String) : String :=
  if dir = "" then name
  else if dir.data.getLast? = some '/' then dir ++ name
  else dir ++ "/" ++ name

/-- Drop trailing `'/'` characters unless the string is entirely slashes
(the tail normalization of `posixpath.split`). -/
def rstripSlashes (l : List Char) : List Char :=
  if l.all (· = '/') then l else (l.reverse.dropWhile (· = '/')).reverse

/-- `os.path.dirname`: everything before the last `'/'` (keeping a run of
leading slashes), empty when there is no slash. -/
def osDirname (p : String) : String :=
  let r := p.data.reverse
  if r.contains '/' then
    String.mk (rstripSlashes ((r.dropWhile (· ≠ '/')).reverse))
  else ""

/-- `os.path.basename`: everything after the last `'/'`. -/
def osBasename (p : String) : String :=
  String.mk ((p.data.reverse.takeWhile (· ≠ '/')).reverse)

/-- `os.path.relpath(p, start)` for the only shape that occurs here: the
package project files produced by `glob` always lie strictly inside the
project directory, where `relpath` just strips `start + "/"`. -/
def osRelpath (p start : String) : String :=
  if strStartsWith p (start ++ "/") then String.mk (p.data.drop (start.length + 1))
  else p

/-! ## The resolution environment

`Environment.__init__` materializes the working directory, the environment
variables, and the project file found by upward search; the resolution code
additionally reads marker files, the `require-dbt-version` lists of project
files (YAML), the adapter type recorded in `~/.dbt/profiles.yml` for the
project's profile, the `glob` results for package project files, and the
installed/installable version lists.  All I/O is performed before or outside
the pure decision logic, so it is modelled as explicit inputs:

* `files` maps each existing file path to the first line `readline()` would
  return;
* `require_dbt_version` maps a project-file path to its declared requirement
  strings (the parsed YAML list, or the comma-split of a string value);
* `profiles_adapter` is the `type` of the profile's default target in
  `profiles.yml` (the result of the YAML lookups in
  `try_get_project_adapter_type`);
* `package_project_files` is the `glob` result for
  `dbt_modules/*/dbt_project.yml` and `dbt_packages/*/dbt_project.yml`;
* `installed_versions`/`installable_versions`: modelled from the spec — the
  collaborators `dbtenv.versions.get_installed_versions` and
  `get_installable_versions` called by `version.py` are not present under
  `src/`; per the spec's consumed interface (`listInstalled(kind?)`,
  `listInstallable(kind?)`) they return the set of installed and the
  collection of installable version identifiers for an adapter kind. -/
structure Env where
  env_vars : List (String × String)
  working_directory : String
  files : List (String × String)
  global_version_file : String
  profiles_adapter : Option String
  require_dbt_version : List (String × List String)
  package_project_files : List String
  installed_versions : String → List NVersion
  installable_versions : String → List NVersion

/-- `os.path.isfile`. -/
def fileExists (env : Env) (p : String) : Bool := (env.files.lookup p).isSome

/-- `file.readline()` for an existing file (the default is never reached:
every read is guarded by a successful existence check or search). -/
def fileContent (env : Env) (p : String) : String := (env.files.lookup p).getD ""

/-- The loop of `Environment.find_file_along_working_path`, with explicit
fuel: `os.path.dirname` strictly shortens its argument until it reaches the
fixed point (`'/'` or `''`) at which the loop stops, so `length + 1` steps
always suffice. -/
def findFileFrom (env : Env) (file_name : String) : Nat → String → Option String
  | 0, _ => none
  | fuel + 1, search_dir =>
    let file_path := osJoin search_dir file_name
    if fileExists env file_path then some file_path
    else
      let parent_dir := osDirname search_dir
      if parent_dir = search_dir then none
      else findFileFrom env file_name fuel parent_dir

/-- `Environment.find_file_along_working_path`: search the working directory
and each of its ancestors for a file of the given name. -/
def find_file_along_working_path (env : Env) (file_name : String) : Option String :=
  findFileFrom env file_name (env.working_directory.length + 1) env.working_directory

/-- `Environment.project_file`: the `dbt_project.yml` found by upward
search. -/
def Env.project_file (env : Env) : Option String :=
  find_file_along_working_path env "dbt_project.yml"

/-- `Environment.project_directory`:
`os.path.dirname(self.project_file) if self.project_file else None`. -/
def Env.project_directory (env : Env) : Option String :=
  env.project_file.map osDirname

/-- `try_get_project_adapter_type` (same logic in both variants): `None`
when there is no project file; otherwise the `type` of the default target of
the project's profile, read from `profiles.yml` (that YAML lookup is I/O and
enters the model as the `profiles_adapter` input). -/
def tryGetProjectAdapterType (env : Env) : Option String :=
  if pyTruthy env.project_file then env.profiles_adapter else none

/-- `try_get_project_version_requirements` (identical in both variants):
read the `require-dbt-version` entries of one project file and parse each
(stripped) entry as a `VersionRequirement`; any exception — including a
missing file, a missing key, or a requirement the pattern rejects — is
caught and yields `[]`. -/
def tryGetProjectVersionRequirements (env : Env) (project_file : Option String)
    (adapter_type : String) : List VersionRequirement :=
  match project_file with
  | none => []
  | some f =>
    match env.require_dbt_version.lookup f with
    | none => []
    | some reqStrings =>
      let parsed := reqStrings.map (fun r => mkVersionRequirement adapter_type (pyStrip r) f)
      if parsed.all (·.isSome) then parsed.reduceOption else []

/-- The `source` property setter of the newer `Version` as a functional
update (`compatible_version.source = ...`). -/
def nvSetSource (v : NVersion) (s : String) : NVersion :=
  { v with source := some s
           source_description := applySourceSetter v.source_description (some s) }

/-! ## Resolution stages, older variant (`dbtenv/version.py`) -/

/-- `read_version_file` of `dbtenv/version.py`:
`Version(adapter_type=..., version=file.readline().strip(), source=file_path)`. -/
def read_version_file_old (env : Env) (file_path : String) (adapter_type : String) : NVersion :=
  mkNVersionFromAdapter adapter_type (pyStrip (fileContent env file_path)) (some file_path) none

/-- `try_get_shell_version` of `dbtenv/version.py`: any set `DBT_VERSION`
value is turned into a version (no validation), with `source` the variable
name. -/
def try_get_shell_version_old (env : Env) (adapter_type : String) : Option NVersion :=
  (env.env_vars.lookup "DBT_VERSION").map
    (fun value => mkNVersionFromAdapter adapter_type value (some "DBT_VERSION") none)

/-- `try_get_local_version` of `dbtenv/version.py`: read the nearest
`.dbt_version` found by upward search. -/
def try_get_local_version_old (env : Env) (adapter_type : String) : Option NVersion :=
  (find_file_along_working_path env ".dbt_version").map
    (fun p => read_version_file_old env p adapter_type)

/-- `try_get_global_version` of `dbtenv/version.py`. -/
def try_get_global_version_old (env : Env) (adapter_type : String) : Option NVersion :=
  if fileExists env env.global_version_file then
    some (read_version_file_old env env.global_version_file adapter_type)
  else none

/-- The local-marker guard of `get_version` (`dbtenv/version.py` line 328):
`local_version and (not env.project_directory or
local_version.source.startswith(env.project_directory))`.  In this variant
`read_version_file` always sets `source` to the file path, so the
`None.startswith` case is unreachable (modelled as `false`). -/
def localGuardOld (projDir : Option String) (lv : Option NVersion) : Bool :=
  match lv with
  | none => false
  | some v =>
    match projDir with
    | none => true
    | some d =>
      if d = "" then true
      else
        match v.source with
        | some s => strStartsWith s d
        | none => false

/-- `try_get_project_version` of `dbtenv/version.py`: project and package
requirements, the preferred-version shortcut, the installed/installable
searches, and the retry that ignores package requirements.  Note line 306,
`compatible_version.source == project_file`, is a comparison (not an
assignment), so that branch returns the version unchanged. -/
def try_get_project_version_old (env : Env) (preferred_version : Option NVersion)
    (adapter_type : String) : Option NVersion :=
  let project_version_requirements :=
    tryGetProjectVersionRequirements env env.project_file adapter_type
  if project_version_requirements.isEmpty then none
  else
    let project_file := osBasename (env.project_file.getD "")
    let packages := env.package_project_files.map
      (fun f => (f, tryGetProjectVersionRequirements env (some f) adapter_type))
    let contributing := packages.filter (fun x => !x.2.isEmpty)
    let all_version_requirements :=
      project_version_requirements ++ (contributing.map (·.2)).flatten
    let requirements_project_files :=
      project_file ::
        contributing.map (fun x => osRelpath x.1 (env.project_directory.getD ""))
    let has_packages_with_version_requirements := !contributing.isEmpty
    let preferredOk :=
      match preferred_version with
      | some p => all_version_requirements.all (fun r => is_compatible_with r p)
      | none => false
    if preferredOk then preferred_version
    else
      let joined := String.intercalate ", " requirements_project_files
      match try_get_max_compatible_version (env.installed_versions adapter_type)
          all_version_requirements with
      | some c => some (nvSetSource c joined)
      | none =>
      match try_get_max_compatible_version (env.installable_versions adapter_type)
          all_version_requirements with
      | some c => some (nvSetSource c joined)
      | none =>
        if has_packages_with_version_requirements then
          let preferredOk2 :=
            match preferred_version with
            | some p => project_version_requirements.all (fun r => is_compatible_with r p)
            | none => false
          if preferredOk2 then preferred_version
          else
            match try_get_max_compatible_version (env.installed_versions adapter_type)
                project_version_requirements with
            | some c => some c
            | none =>
              match try_get_max_compatible_version (env.installable_versions adapter_type)
                  project_version_requirements with
              | some c => some (nvSetSource c project_file)
              | none => none
        else none

/-- Lines 341-352 of `get_version` (`dbtenv/version.py`): return the
preferred version if set, else the max installed version (re-wrapped as a
fresh `Version` with the "max installed" description), else the max
installable version (its description overwritten in place); an empty
installable pool raises `IndexError` inside `get_max_version`. -/
def get_version_old_tail (env : Env) (adapter_type : String)
    (preferred_version : Option NVersion) : Except PyErr (Option NVersion) :=
  match preferred_version with
  | some p => .ok (some p)
  | none =>
    let installed := env.installed_versions adapter_type
    if !installed.isEmpty then
      match get_max_version installed with
      | .ok m => .ok (some (mkNVersionFromAdapter adapter_type m.pypi_version none
          (some "max installed version for current adapter")))
      | .error e => .error e
    else
      match get_max_version (env.installable_versions adapter_type) with
      | .ok m =>
        .ok (some { m with
          source_description := some "max installable version for current adapter" })
      | .error e => .error e

/-- `get_version` of `dbtenv/version.py` (lines 318-352).  The
`adapter_type` parameter is unconditionally overwritten on line 319 by the
adapter type recomputed from the project file, and resolution stops before
any stage when none can be determined. -/
def get_version_old (env : Env) (_adapter_type_arg : Option String) :
    Except PyErr (Option NVersion) :=
  let adapter_type := tryGetProjectAdapterType env
  if !pyTruthy adapter_type then .ok none
  else
    let a := adapter_type.getD ""
    match try_get_shell_version_old env a with
    | some shell_version => .ok (some shell_version)
    | none =>
      let local_version := try_get_local_version_old env a
      if localGuardOld env.project_directory local_version then .ok local_version
      else
        let global_version := try_get_global_version_old env a
        if global_version.isSome && !pyTruthy env.project_directory then .ok global_version
        else
          let preferred_version := local_version <|> global_version
          let project_version :=
            if pyTruthy env.project_directory then
              try_get_project_version_old env preferred_version a
            else none
          match project_version with
          | some pv => .ok (some pv)
          | none => get_version_old_tail env a preferred_version

/-! ## Resolution stages, newer variant (`dbtenv/dbtenv/version.py`) -/

/-- `read_version_file` of `dbtenv/dbtenv/version.py`: a pip-specifier line
becomes a `Version` with only a `source_description` (no `source`); a
bare-version line requires a known adapter type, and without one the
function falls off its end and returns `None`; anything else raises
`DbtenvError`. -/
def read_version_file_new (env : Env) (file_path : String) (adapter_type : Option String)
    (source_description : String) : Except PyErr (Option NVersion) :=
  let value := pyStrip (fileContent env file_path)
  match matchPip value.data with
  | some _ => (mkNVersionFromPip value none (some source_description)).map some
  | none =>
    if matchBare value.data then
      if pyTruthy adapter_type then
        .ok (some (mkNVersionFromAdapter (adapter_type.getD "") value none
          (some source_description)))
      else .ok none
    else .error (.dbtenvError ("Invalid value in " ++ file_path ++ ": " ++ value))

/-- `try_get_shell_version` of `dbtenv/dbtenv/version.py`: a pip-specifier
`DBT_VERSION` is returned regardless of the adapter type; a bare version
requires a (truthy) adapter type, and without one the function falls off its
end and returns `None`; a malformed value raises `DbtenvError`.  Note that
no `source`/`source_description` is attached. -/
def try_get_shell_version_new (env : Env) (adapter_type : Option String) :
    Except PyErr (Option NVersion) :=
  match env.env_vars.lookup "DBT_VERSION" with
  | none => .ok none
  | some value =>
    match matchPip value.data with
    | some _ => (mkNVersionFromPip value none none).map some
    | none =>
      if matchBare value.data then
        if pyTruthy adapter_type then
          .ok (some (mkNVersionFromAdapter (adapter_type.getD "") value none none))
        else .ok none
      else
        .error (.dbtenvError
          ("Invalid value in DBT_VERSION environment variable: " ++ value))

/-- `try_get_local_version` of `dbtenv/dbtenv/version.py`. -/
def try_get_local_version_new (env : Env) (adapter_type : Option String) :
    Except PyErr (Option NVersion) :=
  match find_file_along_working_path env ".dbt_version" with
  | none => .ok none
  | some p =>
    read_version_file_new env p adapter_type ("set by local version file " ++ p)

/-- `try_get_global_version` of `dbtenv/dbtenv/version.py`. -/
def try_get_global_version_new (env : Env) (adapter_type : Option String) :
    Except PyErr (Option NVersion) :=
  if fileExists env env.global_version_file then
    read_version_file_new env env.global_version_file adapter_type
      ("set by global version file " ++ env.global_version_file)
  else .ok none

/-- The local-marker guard of `get_version` (`dbtenv/dbtenv/version.py` line
319): in this variant `read_version_file` never sets `source`, so once a
project directory is known the guard evaluates
`local_version.source.startswith(...)` on `None` and raises
`AttributeError`. -/
def localGuardNew (projDir : Option String) (lv : NVersion) : Except PyErr Bool :=
  match projDir with
  | none => .ok true
  | some d =>
    if d = "" then .ok true
    else
      match lv.source with
      | none => .error .attributeError
      | some s => .ok (strStartsWith s d)

/-- `try_get_project_version` of `dbtenv/dbtenv/version.py`: like the older
variant but without package project files and without the retry. -/
def try_get_project_version_new (env : Env) (preferred_version : Option NVersion)
    (adapter_type : String) : Option NVersion :=
  let project_version_requirements :=
    tryGetProjectVersionRequirements env env.project_file adapter_type
  if project_version_requirements.isEmpty then none
  else
    let project_file := osBasename (env.project_file.getD "")
    let requirements_project_files := [project_file]
    let preferredOk :=
      match preferred_version with
      | some p => project_version_requirements.all (fun r => is_compatible_with r p)
      | none => false
    if preferredOk then preferred_version
    else
      let joined := String.intercalate ", " requirements_project_files
      match try_get_max_compatible_version (env.installed_versions adapter_type)
          project_version_requirements with
      | some c => some (nvSetSource c joined)
      | none =>
        match try_get_max_compatible_version (env.installable_versions adapter_type)
            project_version_requirements with
        | some c => some (nvSetSource c joined)
        | none => none

/-- `get_version` of `dbtenv/dbtenv/version.py` (lines 310-348): the adapter
type is recomputed only when the argument is falsy; the adapter-kind gate
sits after the shell, local and global stages; the stage order and fallbacks
otherwise mirror the older variant (with "stable" in the two max
descriptions). -/
def get_version_new (env : Env) (adapter_type_arg : Option String) :
    Except PyErr (Option NVersion) :=
  let adapter_type :=
    if pyTruthy adapter_type_arg then adapter_type_arg else tryGetProjectAdapterType env
  match try_get_shell_version_new env adapter_type with
  | .error e => .error e
  | .ok (some shell_version) => .ok (some shell_version)
  | .ok none =>
  match try_get_local_version_new env adapter_type with
  | .error e => .error e
  | .ok local_version =>
  match
    (match local_version with
     | none => .ok false
     | some lv => localGuardNew env.project_directory lv : Except PyErr Bool) with
  | .error e => .error e
  | .ok true => .ok local_version
  | .ok false =>
  match try_get_global_version_new env adapter_type with
  | .error e => .error e
  | .ok global_version =>
  if global_version.isSome && !pyTruthy env.project_directory then .ok global_version
  else if !pyTruthy adapter_type then .ok none
  else
    let a := adapter_type.getD ""
    let preferred_version := local_version <|> global_version
    let project_version :=
      if pyTruthy env.project_directory then
        try_get_project_version_new env preferred_version a
      else none
    match project_version with
    | some pv => .ok (some pv)
    | none =>
    match preferred_version with
    | some p => .ok (some p)
    | none =>
      let installed := env.installed_versions a
      if !installed.isEmpty then
        match get_max_version installed with
        | .ok m => .ok (some (mkNVersionFromAdapter a m.pypi_version none
            (some "max installed stable version for current adapter")))
        | .error e => .error e
      else
        match get_max_version (env.installable_versions a) with
        | .ok m =>
          .ok (some { m with
            source_description := some "max installable stable version for current adapter" })
        | .error e => .error e

/-! ## Auxiliary definitions for the statements and witnesses below -/

/-- The head of the list (if any) falsifies `p`. -/
def headNot (p : α → Bool) : List α → Prop
  | [] => True
  | c :: _ => p c = false

/-- The list `MAJOR.MINOR.PATCH` built from three digit runs, followed by a
continuation. -/
def tripleThen (d1 d2 d3 rest : List Char) : List Char :=
  d1 ++ ('.' :: (d2 ++ ('.' :: (d3 ++ rest))))

/-- The version list of the max-installed scenario of the specification
(`{1.0.0, 1.2.0, 1.1.0}`), used as a concrete witness input. -/
def c6Versions : List NVersion :=
  [mkNVersionFromAdapter "postgres" "1.0.0" none none,
   mkNVersionFromAdapter "postgres" "1.2.0" none none,
   mkNVersionFromAdapter "postgres" "1.1.0" none none]

/-- The requirement list `[">=1.1.0"]` used as a concrete witness input. -/
def c5Requirements : List VersionRequirement :=
  (mkVersionRequirement "postgres" ">=1.1.0" "dbt_project.yml").toList

/-- Concrete environment for the C9 witness: a project at `/proj` and a
pip-specifier local marker inside it. -/
def c9Env : Env :=
  { env_vars := []
    working_directory := "/proj"
    files := [("/proj/dbt_project.yml", "name: p"),
              ("/proj/.dbt_version", "dbt-postgres==1.0.0")]
    global_version_file := "/home/u/.dbt/version"
    profiles_adapter := some "postgres"
    require_dbt_version := []
    package_project_files := []
    installed_versions := fun _ => []
    installable_versions := fun _ => [] }

/-- Concrete environment for the C3 counterexample: `DBT_VERSION` is a
well-formed bare version, a project exists, but no adapter type can be
determined from `profiles.yml`. -/
def c3Env : Env :=
  { env_vars := [("DBT_VERSION", "1.0.0")]
    working_directory := "/proj"
    files := [("/proj/dbt_project.yml", "name: p")]
    global_version_file := "/home/u/.dbt/version"
    profiles_adapter := none
    require_dbt_version := []
    package_project_files := []
    installed_versions := fun _ => []
    installable_versions := fun _ => [] }

/-- Environment with a determinable adapter type for the C3 witness. -/
def c3bEnv : Env := { c3Env with profiles_adapter := some "postgres" }

/-- The specification's notion, stated from its words for comparison with
the code's guard: a file path lies inside a directory when it extends the
directory path with a path separator. -/
def pathInsideDirectory (p d : String) : Bool := strStartsWith p (d ++ "/")

/-- Concrete environment for the C4 counterexample: working directory
`/a/.dbt/models`, project file `/a/.dbt/dbt_project.yml` (so the project
directory is `/a/.dbt`), and a local marker at `/a/.dbt_version` — found
two levels up, outside the project root, but extending the project-directory
string without a separator. -/
def c4Env : Env :=
  { env_vars := []
    working_directory := "/a/.dbt/models"
    files := [("/a/.dbt/dbt_project.yml", "name: p"), ("/a/.dbt_version", "1.0.0")]
    global_version_file := "/home/u/.dbt/version"
    profiles_adapter := some "postgres"
    require_dbt_version := []
    package_project_files := []
    installed_versions := fun _ => []
    installable_versions := fun _ => [] }

/-- Environment for the C4 witness: a marker nested inside the project
root, which the string-prefix guard accepts. -/
def c4bEnv : Env :=
  { c4Env with
    working_directory := "/a/proj/models"
    files := [("/a/proj/dbt_project.yml", "name: p"),
              ("/a/proj/.dbt_version", "1.0.0")] }

/-- Concrete environment for the C1 counterexample: a project requiring
`>=2.0.0`, with only `1.0.0` installed and only `1.5.0` installable. -/
def c1Env : Env :=
  { env_vars := []
    working_directory := "/proj"
    files := [("/proj/dbt_project.yml", "name: p")]
    global_version_file := "/home/u/.dbt/version"
    profiles_adapter := some "postgres"
    require_dbt_version := [("/proj/dbt_project.yml", [">=2.0.0"])]
    package_project_files := []
    installed_versions := fun _ => [mkNVersionFromAdapter "postgres" "1.0.0" none none]
    installable_versions := fun _ => [mkNVersionFromAdapter "postgres" "1.5.0" none none] }

/-- Environment for the C1 witness: like `c1Env` but with an
outside-the-project local marker `1.0.0` that the project requirements
reject. -/
def c1bEnv : Env :=
  { c1Env with
    working_directory := "/a/b/c"
    files := [("/a/b/dbt_project.yml", "name: p"), ("/a/.dbt_version", "1.0.0")]
    require_dbt_version := [("/a/b/dbt_project.yml", [">=2.0.0"])] }

/-- Concrete environment for the C7 counterexample: `DBT_VERSION` holds the
malformed value `garbage`. -/
def c7Env : Env :=
  { env_vars := [("DBT_VERSION", "garbage")]
    working_directory := "/proj"
    files := [("/proj/dbt_project.yml", "name: p")]
    global_version_file := "/home/u/.dbt/version"
    profiles_adapter := some "postgres"
    require_dbt_version := []
    package_project_files := []
    installed_versions := fun _ => []
    installable_versions := fun _ => [] }

/-! ## Order lemmas for the string and version comparisons -/

theorem charCmp_refl (a : Char) : charCmp a a = .eq := by
  simp [charCmp]

theorem charCmp_swap (a b : Char) : charCmp b a = (charCmp a b).swap := by
  unfold charCmp
  split_ifs <;> first | rfl | omega

theorem charCmp_congr_left {a b : Char} (h : charCmp a b = .eq) (c : Char) :
    charCmp b c = charCmp a c := by
  unfold charCmp at *
  split_ifs at h ⊢ <;> first | rfl | omega

theorem charCmp_congr_right {b c : Char} (h : charCmp b c = .eq) (a : Char) :
    charCmp a b = charCmp a c := by
  unfold charCmp at *
  split_ifs at h ⊢ <;> first | rfl | omega

theorem charCmp_lt_trans {a b c : Char} (h1 : charCmp a b = .lt) (h2 : charCmp b c = .lt) :
    charCmp a c = .lt := by
  unfold charCmp at *
  split_ifs at h1 h2 ⊢ <;> first | rfl | omega

theorem strCmpL_refl (l : List Char) : strCmpL l l = .eq := by
  induction l with
  | nil => rfl
  | cons a as ih => simp [strCmpL, charCmp_refl, ih]

theorem strCmpL_swap (a b : List Char) : strCmpL b a = (strCmpL a b).swap := by
  induction a generalizing b with
  | nil => cases b <;> rfl
  | cons x xs ih =>
    cases b with
    | nil => rfl
    | cons y ys =>
      cases h : charCmp x y with
      | lt => simp [strCmpL, charCmp_swap x y, h, Ordering.swap]
      | gt => simp [strCmpL, charCmp_swap x y, h, Ordering.swap]
      | eq => simp [strCmpL, charCmp_swap x y, h, Ordering.swap, ih ys]

theorem strCmpL_eq_congr_left {a b : List Char} (h : strCmpL a b = .eq) (c : List Char) :
    strCmpL b c = strCmpL a c := by
  induction a generalizing b c with
  | nil =>
    cases b with
    | nil => rfl
    | cons y ys => simp [strCmpL] at h
  | cons x xs ih =>
    cases b with
    | nil => simp [strCmpL] at h
    | cons y ys =>
      simp only [strCmpL] at h ⊢
      cases hxy : charCmp x y with
      | eq =>
        rw [hxy] at h
        cases c with
        | nil => rfl
        | cons z zs =>
          simp only [strCmpL, charCmp_congr_left hxy z]
          cases charCmp x z <;> simp [ih h]
      | lt => rw [hxy] at h; exact absurd h (by simp)
      | gt => rw [hxy] at h; exact absurd h (by simp)

theorem strCmpL_eq_congr_right {b c : List Char} (h : strCmpL b c = .eq) (a : List Char) :
    strCmpL a b = strCmpL a c := by
  have hcb : strCmpL c b = .eq := by
    rw [strCmpL_swap, h]; rfl
  calc strCmpL a b = (strCmpL b a).swap := by rw [strCmpL_swap]
    _ = (strCmpL c a).swap := by rw [strCmpL_eq_congr_left hcb a]
    _ = strCmpL a c := by rw [← strCmpL_swap]

theorem strCmpL_lt_trans {a b c : List Char} (h1 : strCmpL a b = .lt)
    (h2 : strCmpL b c = .lt) : strCmpL a c = .lt := by
  induction a generalizing b c with
  | nil =>
    cases b with
    | nil => exact absurd h1 (by simp [strCmpL])
    | cons y ys =>
      cases c with
      | nil => exact absurd h2 (by simp [strCmpL])
      | cons z zs => rfl
  | cons x xs ih =>
    cases b with
    | nil => exact absurd h1 (by simp [strCmpL])
    | cons y ys =>
      cases c with
      | nil => exact absurd h2 (by simp [strCmpL])
      | cons z zs =>
        simp only [strCmpL] at h1 h2 ⊢
        cases hxy : charCmp x y with
        | lt =>
          cases hyz : charCmp y z with
          | lt => rw [charCmp_lt_trans hxy hyz]
          | eq => rw [← charCmp_congr_right hyz x, hxy]
          | gt => rw [hyz] at h2; exact absurd h2 (by simp)
        | eq =>
          rw [hxy] at h1
          cases hyz : charCmp y z with
          | lt => rw [← charCmp_congr_left hxy z, hyz]
          | eq =>
            rw [hyz] at h2
            rw [← charCmp_congr_left hxy z, hyz]
            exact ih h1 h2
          | gt => rw [hyz] at h2; exact absurd h2 (by simp)
        | gt => rw [hxy] at h1; exact absurd h1 (by simp)

theorem strCmpL_gt_trans {a b c : List Char} (h1 : strCmpL a b = .gt)
    (h2 : strCmpL b c = .gt) : strCmpL a c = .gt := by
  have h1' : strCmpL b a = .lt := by rw [strCmpL_swap, h1]; rfl
  have h2' : strCmpL c b = .lt := by rw [strCmpL_swap, h2]; rfl
  have := strCmpL_lt_trans h2' h1'
  rw [strCmpL_swap, this]
  rfl

theorem strCmpL_ge_trans {a b c : List Char} (h1 : strCmpL a b ≠ .lt)
    (h2 : strCmpL b c ≠ .lt) : strCmpL a c ≠ .lt := by
  cases hab : strCmpL a b with
  | lt => exact absurd hab h1
  | eq => rw [strCmpL_eq_congr_left hab c] at *; exact h2
  | gt =>
    cases hbc : strCmpL b c with
    | lt => exact absurd hbc h2
    | eq => rw [← strCmpL_eq_congr_right hbc a, hab]; simp
    | gt => rw [strCmpL_gt_trans hab hbc]; simp

/-- A non-empty extension of a string is strictly greater in Python's string
order. -/
theorem strCmpL_self_append {l r : List Char} (h : r ≠ []) :
    strCmpL l (l ++ r) = .lt := by
  induction l with
  | nil => cases r with
    | nil => exact absurd rfl h
    | cons c cs => rfl
  | cons x xs ih => simp [strCmpL, charCmp_refl, ih]

/-- Appending to a common prefix does not change the comparison of the
tails. -/
theorem strCmpL_append_left (l a b : List Char) :
    strCmpL (l ++ a) (l ++ b) = strCmpL a b := by
  induction l with
  | nil => rfl
  | cons x xs ih => simp [strCmpL, charCmp_refl, ih]

theorem lcompEqb_refl (x : LComp) : lcompEqb x x = true := by
  cases x <;> simp [lcompEqb]

/-- A strict prefix of a component list is `LooseVersion`-smaller. -/
theorem looseCmp_self_append {l r : List LComp} (h : r ≠ []) :
    looseCmp l (l ++ r) = .ok .lt := by
  induction l with
  | nil => cases r with
    | nil => exact absurd rfl h
    | cons c cs => rfl
  | cons x xs ih => simp [looseCmp, lcompEqb_refl, ih]

/-! ### Version-order lemmas (`NVersion`) -/

theorem nvCmp_swap (v w : NVersion) : nvCmp w v = (nvCmp v w).swap := by
  unfold nvCmp strCmp
  rw [strCmpL_swap v.name.data w.name.data,
    strCmpL_swap v.pypi_version.data w.pypi_version.data]
  cases strCmpL v.name.data w.name.data <;> simp [Ordering.swap]

theorem nvGe_trans {a b c : NVersion} (h1 : nvCmp a b ≠ .lt) (h2 : nvCmp b c ≠ .lt) :
    nvCmp a c ≠ .lt := by
  unfold nvCmp strCmp at *
  cases hab : strCmpL a.name.data b.name.data with
  | lt => rw [hab] at h1; exact absurd rfl h1
  | eq =>
    rw [hab] at h1
    have hac : strCmpL a.name.data c.name.data = strCmpL b.name.data c.name.data :=
      (strCmpL_eq_congr_left hab c.name.data).symm
    rw [hac]
    cases hbc : strCmpL b.name.data c.name.data with
    | lt => rw [hbc] at h2; exact absurd rfl h2
    | eq =>
      rw [hbc] at h2
      exact strCmpL_ge_trans h1 h2
    | gt => simp
  | gt =>
    rw [hab] at h1
    cases hbc : strCmpL b.name.data c.name.data with
    | lt => rw [hbc] at h2; exact absurd rfl h2
    | eq => rw [← strCmpL_eq_congr_right hbc a.name.data, hab]; simp
    | gt => rw [strCmpL_gt_trans hab hbc]; simp

theorem nvCmp_refl (v : NVersion) : nvCmp v v = .eq := by
  unfold nvCmp strCmp
  rw [strCmpL_refl, strCmpL_refl]

theorem nvLt_then_ge {v m : NVersion} (h : nvLt v m = true) : nvCmp m v ≠ .lt := by
  unfold nvLt at h
  rw [nvCmp_swap]
  simp only [decide_eq_true_eq] at h
  rw [h]
  simp [Ordering.swap]

theorem not_nvLt_then_ge {v m : NVersion} (h : ¬ nvLt v m = true) : nvCmp v m ≠ .lt := by
  unfold nvLt at h
  simpa using h

/-! ### `sortedLast` returns a member that nothing in the list strictly
exceeds -/

theorem sortedLast_go_spec (l : List NVersion) (acc : NVersion) :
    ∃ m, (l.foldl
        (fun acc v =>
          match acc with
          | none => some v
          | some m => if nvLt v m then some m else some v)
        (some acc)) = some m ∧
      (m = acc ∨ m ∈ l) ∧ nvCmp m acc ≠ .lt ∧ ∀ v ∈ l, nvCmp m v ≠ .lt := by
  induction l generalizing acc with
  | nil =>
    refine ⟨acc, rfl, Or.inl rfl, ?_, by simp⟩
    rw [nvCmp_refl]
    simp
  | cons v vs ih =>
    by_cases hv : nvLt v acc = true
    · obtain ⟨m, hm, hmem, hge, hall⟩ := ih acc
      refine ⟨m, ?_, ?_, hge, ?_⟩
      · simpa [List.foldl_cons, hv] using hm
      · rcases hmem with h | h
        · exact Or.inl h
        · exact Or.inr (List.mem_cons_of_mem v h)
      · intro w hw
        rcases List.mem_cons.mp hw with h | h
        · subst h
          exact nvGe_trans hge (nvLt_then_ge hv)
        · exact hall w h
    · obtain ⟨m, hm, hmem, hge, hall⟩ := ih v
      refine ⟨m, ?_, ?_, ?_, ?_⟩
      · simpa [List.foldl_cons, hv] using hm
      · rcases hmem with h | h
        · exact Or.inr (h ▸ List.mem_cons_self v vs)
        · exact Or.inr (List.mem_cons_of_mem v h)
      · exact nvGe_trans hge (not_nvLt_then_ge hv)
      · intro w hw
        rcases List.mem_cons.mp hw with h | h
        · subst h; exact hge
        · exact hall w h

theorem sortedLast_spec (l : List NVersion) (h : l ≠ []) :
    ∃ m, sortedLast l = some m ∧ m ∈ l ∧ ∀ v ∈ l, nvCmp m v ≠ .lt := by
  cases l with
  | nil => exact absurd rfl h
  | cons a as =>
    obtain ⟨m, hm, hmem, hge, hall⟩ := sortedLast_go_spec as a
    refine ⟨m, ?_, ?_, ?_⟩
    · simpa [sortedLast, List.foldl_cons] using hm
    · rcases hmem with h | h
      · exact h ▸ List.mem_cons_self a as
      · exact List.mem_cons_of_mem a h
    · intro v hv
      rcases List.mem_cons.mp hv with h | h
      · subst h; exact hge
      · exact hall v h

/-- Behaviour of `get_max_version` on a non-empty list: a stable maximum
when some version is stable, otherwise an overall maximum (shared by the C5
and C6 results). -/
theorem get_max_version_spec (versions : List NVersion) (h : versions ≠ []) :
    ∃ m, get_max_version versions = .ok m ∧
      ((∃ s ∈ versions, s.is_stable = true) →
        m.is_stable = true ∧ m ∈ versions ∧
          ∀ v ∈ versions, v.is_stable = true → nvCmp m v ≠ .lt) ∧
      ((∀ s ∈ versions, ¬ s.is_stable = true) →
        m ∈ versions ∧ ∀ v ∈ versions, nvCmp m v ≠ .lt) := by
  by_cases hs : (versions.filter (·.is_stable)).isEmpty
  · obtain ⟨m, hm, hmem, hall⟩ := sortedLast_spec versions h
    refine ⟨m, ?_, ?_, ?_⟩
    · simp only [get_max_version]
      rw [if_pos hs, hm]
    · rintro ⟨s, hsmem, hsst⟩
      rw [List.isEmpty_iff, List.filter_eq_nil_iff] at hs
      exact absurd hsst (by simpa using hs s hsmem)
    · intro _
      exact ⟨hmem, hall⟩
  · have hne : versions.filter (·.is_stable) ≠ [] := by
      simpa [List.isEmpty_iff] using hs
    obtain ⟨m, hm, hmem, hall⟩ := sortedLast_spec _ hne
    have hmv := List.mem_filter.mp hmem
    refine ⟨m, ?_, ?_, ?_⟩
    · simp only [get_max_version]
      rw [if_neg hs, hm]
    · intro _
      refine ⟨by simpa using hmv.2, hmv.1, ?_⟩
      intro v hv hvst
      exact hall v (List.mem_filter.mpr ⟨hv, by simpa using hvst⟩)
    · intro hnone
      exact absurd (by simpa using hmv.2) (hnone m hmv.1)

/-- A version qualifies for `try_get_max_compatible_version` iff it is
semantic and satisfies every requirement. -/
theorem isCompatibleCandidate_iff (requirements : List VersionRequirement) (v : NVersion) :
    isCompatibleCandidate requirements v = true ↔
      v.is_semantic = true ∧ ∀ r ∈ requirements, is_compatible_with r v = true := by
  simp [isCompatibleCandidate, List.all_eq_true]

/-- C6 (confirmed): for every non-empty collection of versions,
`get_max_version` returns the maximum among the stable versions when at
least one stable version is present (a stable member that no stable member
strictly exceeds), and otherwise the maximum among all versions in the
collection. -/
theorem C6_get_max_version_spec (versions : List NVersion) (h : versions ≠ []) :
    ∃ m, get_max_version versions = .ok m ∧
      ((∃ s ∈ versions, s.is_stable = true) →
        m.is_stable = true ∧ m ∈ versions ∧
          ∀ v ∈ versions, v.is_stable = true → nvCmp m v ≠ .lt) ∧
      ((∀ s ∈ versions, ¬ s.is_stable = true) →
        m ∈ versions ∧ ∀ v ∈ versions, nvCmp m v ≠ .lt) :=
  get_max_version_spec versions h


/-- Witness for C6 at the concrete pool `{1.0.0, 1.2.0, 1.1.0}`. -/
theorem C6_witness :
    ∃ m, get_max_version c6Versions = .ok m ∧
      ((∃ s ∈ c6Versions, s.is_stable = true) →
        m.is_stable = true ∧ m ∈ c6Versions ∧
          ∀ v ∈ c6Versions, v.is_stable = true → nvCmp m v ≠ .lt) ∧
      ((∀ s ∈ c6Versions, ¬ s.is_stable = true) →
        m ∈ c6Versions ∧ ∀ v ∈ c6Versions, nvCmp m v ≠ .lt) :=
  C6_get_max_version_spec c6Versions (by simp [c6Versions])

/-- C5 (confirmed): `try_get_max_compatible_version` returns `none` exactly
when no candidate is semantic and satisfies every requirement (the
conjunction over the requirement list, vacuous when it is empty), and
otherwise returns a candidate of exactly that qualifying set which is
highest under the stable-preferring tie-break rule; non-semantic candidates
never participate. -/
theorem C5_try_get_max_compatible_version_spec (versions : List NVersion)
    (requirements : List VersionRequirement) :
    (try_get_max_compatible_version versions requirements = none ↔
      ∀ v ∈ versions,
        ¬ (v.is_semantic = true ∧ ∀ r ∈ requirements, is_compatible_with r v = true)) ∧
    (∀ m, try_get_max_compatible_version versions requirements = some m →
      m ∈ versions ∧ m.is_semantic = true ∧
      (∀ r ∈ requirements, is_compatible_with r m = true) ∧
      ((∃ q ∈ versions.filter (isCompatibleCandidate requirements), q.is_stable = true) →
        m.is_stable = true ∧
          ∀ q ∈ versions.filter (isCompatibleCandidate requirements),
            q.is_stable = true → nvCmp m q ≠ .lt) ∧
      ((∀ q ∈ versions.filter (isCompatibleCandidate requirements), ¬ q.is_stable = true) →
        ∀ q ∈ versions.filter (isCompatibleCandidate requirements), nvCmp m q ≠ .lt)) := by
  by_cases hq : (versions.filter (isCompatibleCandidate requirements)).isEmpty
  · constructor
    · constructor
      · intro _ v hv hcand
        rw [List.isEmpty_iff, List.filter_eq_nil_iff] at hq
        exact hq v hv ((isCompatibleCandidate_iff requirements v).mpr hcand)
      · intro _
        simp [try_get_max_compatible_version, hq]
    · intro m hm
      simp [try_get_max_compatible_version, hq] at hm
  · have hne : versions.filter (isCompatibleCandidate requirements) ≠ [] := by
      simpa [List.isEmpty_iff] using hq
    obtain ⟨m0, hm0, hstable, hunstable⟩ := get_max_version_spec _ hne
    have hres : try_get_max_compatible_version versions requirements = some m0 := by
      simp only [try_get_max_compatible_version]
      rw [if_neg hq, hm0]
    constructor
    · constructor
      · intro hnone
        rw [hres] at hnone
        exact absurd hnone (by simp)
      · intro hall
        obtain ⟨v, hv⟩ := List.exists_mem_of_ne_nil _ hne
        have hv' := List.mem_filter.mp hv
        exact absurd ((isCompatibleCandidate_iff requirements v).mp hv'.2)
          (hall v hv'.1)
    · intro m hm
      rw [hres] at hm
      cases hm
      have hmem : m0 ∈ versions.filter (isCompatibleCandidate requirements) := by
        by_cases hst : ∃ s ∈ versions.filter (isCompatibleCandidate requirements),
            s.is_stable = true
        · exact ((hstable hst).2.1 : _)
        · exact (hunstable (by
            intro s hs hss
            exact hst ⟨s, hs, hss⟩)).1
      have hmf := List.mem_filter.mp hmem
      have hcand := (isCompatibleCandidate_iff requirements m0).mp hmf.2
      refine ⟨hmf.1, hcand.1, hcand.2, ?_, ?_⟩
      · intro hst
        exact ⟨(hstable hst).1, (hstable hst).2.2⟩
      · intro hnone
        exact (hunstable hnone).2


/-- Witness for C5 at the concrete pool `{1.0.0, 1.2.0, 1.1.0}` and the
requirement `>=1.1.0`: the result `1.2.0` is a member, semantic, and
satisfies the requirement. -/
theorem C5_witness :
    mkNVersionFromAdapter "postgres" "1.2.0" none none ∈ c6Versions ∧
      (mkNVersionFromAdapter "postgres" "1.2.0" none none).is_semantic = true ∧
      (∀ r ∈ c5Requirements,
        is_compatible_with r (mkNVersionFromAdapter "postgres" "1.2.0" none none) = true) := by
  have h := (C5_try_get_max_compatible_version_spec c6Versions c5Requirements).2
    (mkNVersionFromAdapter "postgres" "1.2.0" none none) rfl
  exact ⟨h.1, h.2.1, h.2.2.1⟩

/-! ## Parsing lemmas for version strings built from a numeric triple -/

theorem string_mk_data (l : List Char) : (String.mk l).data = l := rfl


theorem takeWhile_append_all {p : α → Bool} {l : List α} (r : List α)
    (h : ∀ a ∈ l, p a = true) : (l ++ r).takeWhile p = l ++ r.takeWhile p := by
  induction l with
  | nil => rfl
  | cons c cs ih =>
    have hc := h c (List.mem_cons_self c cs)
    simp only [List.cons_append, List.takeWhile_cons, hc, if_true]
    rw [ih (fun a ha => h a (List.mem_cons_of_mem c ha))]

theorem dropWhile_append_all {p : α → Bool} {l : List α} (r : List α)
    (h : ∀ a ∈ l, p a = true) : (l ++ r).dropWhile p = r.dropWhile p := by
  induction l with
  | nil => rfl
  | cons c cs ih =>
    have hc := h c (List.mem_cons_self c cs)
    simp only [List.cons_append, List.dropWhile_cons, hc, if_true]
    exact ih (fun a ha => h a (List.mem_cons_of_mem c ha))

theorem takeWhile_nil_of_headNot {p : α → Bool} {l : List α} (h : headNot p l) :
    l.takeWhile p = [] := by
  cases l with
  | nil => rfl
  | cons c cs => simp [List.takeWhile_cons, headNot] at h ⊢; simp [h]

theorem dropWhile_self_of_headNot {p : α → Bool} {l : List α} (h : headNot p l) :
    l.dropWhile p = l := by
  cases l with
  | nil => rfl
  | cons c cs => simp [List.dropWhile_cons, headNot] at h ⊢; simp [h]

theorem takeWhile_self_of_all {p : α → Bool} {l : List α}
    (h : ∀ a ∈ l, p a = true) : l.takeWhile p = l := by
  have := takeWhile_append_all (p := p) (l := l) [] h
  simpa using this

theorem dropWhile_self_of_all_neg {p : α → Bool} {l : List α}
    (h : ∀ a ∈ l, p a = false) : l.dropWhile p = l := by
  cases l with
  | nil => rfl
  | cons c cs =>
    have := h c (List.mem_cons_self c cs)
    simp [List.dropWhile_cons, this]


/-- Spans of digits and the subsequent character: the three numeric
components of the semantic-version pattern are recovered exactly when the
input is a digit triple followed by a non-digit continuation. -/
theorem matchSemver_triple_append (d1 d2 d3 rest : List Char)
    (h1 : d1 ≠ []) (h1d : ∀ x ∈ d1, isDigitChar x = true)
    (h2 : d2 ≠ []) (h2d : ∀ x ∈ d2, isDigitChar x = true)
    (h3 : d3 ≠ []) (h3d : ∀ x ∈ d3, isDigitChar x = true)
    (hrest : headNot isDigitChar rest) :
    matchSemver (tripleThen d1 d2 d3 rest) =
      some (tripleThen d1 d2 d3 [], preTail rest) := by
  have hdot : isDigitChar '.' = false := by decide
  have e1t : (tripleThen d1 d2 d3 rest).takeWhile isDigitChar = d1 := by
    rw [tripleThen, takeWhile_append_all _ h1d]
    simp [List.takeWhile_cons, hdot]
  have e1d : (tripleThen d1 d2 d3 rest).dropWhile isDigitChar =
      '.' :: (d2 ++ ('.' :: (d3 ++ rest))) := by
    rw [tripleThen, dropWhile_append_all _ h1d]
    simp [List.dropWhile_cons, hdot]
  have e2t : (d2 ++ ('.' :: (d3 ++ rest))).takeWhile isDigitChar = d2 := by
    rw [takeWhile_append_all _ h2d]
    simp [List.takeWhile_cons, hdot]
  have e2d : (d2 ++ ('.' :: (d3 ++ rest))).dropWhile isDigitChar =
      '.' :: (d3 ++ rest) := by
    rw [dropWhile_append_all _ h2d]
    simp [List.dropWhile_cons, hdot]
  have e3t : (d3 ++ rest).takeWhile isDigitChar = d3 := by
    rw [takeWhile_append_all _ h3d, takeWhile_nil_of_headNot hrest, List.append_nil]
  have e3d : (d3 ++ rest).dropWhile isDigitChar = rest := by
    rw [dropWhile_append_all _ h3d]
    exact dropWhile_self_of_headNot hrest
  have h1e : d1.isEmpty = false := by simpa [List.isEmpty_iff] using h1
  have h2e : d2.isEmpty = false := by simpa [List.isEmpty_iff] using h2
  have h3e : d3.isEmpty = false := by simpa [List.isEmpty_iff] using h3
  have hshape : d1 ++ '.' :: d2 ++ '.' :: d3 = tripleThen d1 d2 d3 [] := by
    simp [tripleThen, List.append_assoc]
  simp only [matchSemver, e1t, e1d, e2t, e2d, e3t, e3d, h1e, h2e, h3e,
    Bool.false_eq_true, if_false, hshape]

theorem tripleThen_append (d1 d2 d3 r : List Char) :
    tripleThen d1 d2 d3 [] ++ r = tripleThen d1 d2 d3 r := by
  simp [tripleThen, List.append_assoc]

theorem lower_not_digit {c : Char} (hc : isLowerChar c = true) :
    isDigitChar c = false := by
  revert hc
  unfold isLowerChar isDigitChar
  simp only [Bool.and_eq_true, decide_eq_true_eq, Bool.and_eq_false_iff,
    decide_eq_false_iff_not]
  omega

/-! ### `tokenize` on digit runs, dots and letter runs -/

theorem tokenize_digits_append (d rest : List Char) (hd : d ≠ [])
    (hdd : ∀ x ∈ d, isDigitChar x = true) (hrest : headNot isDigitChar rest) :
    tokenize (d ++ rest) = .num (digitsToNat d) :: tokenize rest := by
  cases d with
  | nil => exact absurd rfl hd
  | cons c cs =>
    have hc : isDigitChar c = true := hdd c (List.mem_cons_self c cs)
    have hcs : ∀ x ∈ cs, isDigitChar x = true :=
      fun x hx => hdd x (List.mem_cons_of_mem c hx)
    rw [List.cons_append, tokenize_cons, if_pos hc]
    rw [takeWhile_append_all _ hcs, takeWhile_nil_of_headNot hrest, List.append_nil]
    rw [dropWhile_append_all _ hcs, dropWhile_self_of_headNot hrest]

theorem tokenize_dot (rest : List Char) : tokenize ('.' :: rest) = tokenize rest := by
  rw [tokenize_cons]
  have h1 : isDigitChar '.' = false := by decide
  have h2 : isLowerChar '.' = false := by decide
  simp [h1, h2]

theorem tokenize_lower_cons {c : Char} (t : List Char) (hc : isLowerChar c = true) :
    tokenize (c :: t) =
      .str (String.mk (c :: t.takeWhile isLowerChar)) ::
        tokenize (t.dropWhile isLowerChar) := by
  rw [tokenize_cons, lower_not_digit hc]
  simp [hc]

/-- `LooseVersion.parse` of `MAJOR.MINOR.PATCH` followed by any non-digit
continuation: three numeric components, then the components of the
continuation. -/
theorem tokenize_triple (d1 d2 d3 rest : List Char)
    (h1 : d1 ≠ []) (h1d : ∀ x ∈ d1, isDigitChar x = true)
    (h2 : d2 ≠ []) (h2d : ∀ x ∈ d2, isDigitChar x = true)
    (h3 : d3 ≠ []) (h3d : ∀ x ∈ d3, isDigitChar x = true)
    (hrest : headNot isDigitChar rest) :
    tokenize (tripleThen d1 d2 d3 rest) =
      .num (digitsToNat d1) :: .num (digitsToNat d2) :: .num (digitsToNat d3) ::
        tokenize rest := by
  have hdot : headNot isDigitChar ('.' :: (d2 ++ ('.' :: (d3 ++ rest)))) := by
    simp only [headNot]
    decide
  rw [tripleThen, tokenize_digits_append d1 _ h1 h1d hdot, tokenize_dot]
  have hdot2 : headNot isDigitChar ('.' :: (d3 ++ rest)) := by
    simp only [headNot]
    decide
  rw [tokenize_digits_append d2 _ h2 h2d hdot2, tokenize_dot]
  rw [tokenize_digits_append d3 _ h3 h3d hrest]

theorem pyStrip_of_no_space {l : List Char} (h : ∀ c ∈ l, isSpaceChar c = false) :
    pyStrip (String.mk l) = String.mk l := by
  unfold pyStrip
  rw [string_mk_data, dropWhile_self_of_all_neg h,
    dropWhile_self_of_all_neg (fun c hc => h c (List.mem_reverse.mp hc)),
    List.reverse_reverse]

/-! ## C2: placement of prereleases in the version order

The claim asserts `1.2.0a1 < 1.2.0`; both `Version` orders in fact place the
prerelease strictly above the final release of the same triple, because the
older variant's `LooseVersion` comparison makes the bare triple a strict
prefix of the prerelease's component list, and the newer variant's plain
string comparison makes the bare triple a strict prefix of the prerelease's
`pypi_version`. -/

/-- C2 (counterexample): the claim `1.2.0a1 < 1.2.0` (and `1.2.0-rc1 <
1.2.0`) is false in both variants: each comparison yields `gt`, placing the
prerelease strictly above the final release. -/
theorem C2_counterexample :
    oldLt (mkOldVersion "1.2.0a1" none none) (mkOldVersion "1.2.0" none none) = false ∧
    oldCmp (mkOldVersion "1.2.0a1" none none) (mkOldVersion "1.2.0" none none) = .gt ∧
    oldLt (mkOldVersion "1.2.0-rc1" none none) (mkOldVersion "1.2.0" none none) = false ∧
    oldCmp (mkOldVersion "1.2.0-rc1" none none) (mkOldVersion "1.2.0" none none) = .gt ∧
    nvLt (mkNVersionFromAdapter "postgres" "1.2.0a1" none none)
      (mkNVersionFromAdapter "postgres" "1.2.0" none none) = false ∧
    nvCmp (mkNVersionFromAdapter "postgres" "1.2.0a1" none none)
      (mkNVersionFromAdapter "postgres" "1.2.0" none none) = .gt ∧
    nvCmp (mkNVersionFromAdapter "postgres" "1.2.0-rc1" none none)
      (mkNVersionFromAdapter "postgres" "1.2.0" none none) = .gt := by
  decide

/-- C2 (amended): for versions of the same numeric `MAJOR.MINOR.PATCH`
triple, a prerelease compares strictly ABOVE the final release in both
variants; prerelease tails of the same triple compare as plain strings in
the newer variant (hence `1.2.0a1 < 1.2.0b1`), and `1.2.0a1 < 1.2.0b1` also
holds in the older variant. -/
theorem C2_amended :
    (∀ (a : String) (d1 d2 d3 : List Char) (c : Char) (t : List Char),
      d1 ≠ [] → (∀ x ∈ d1, isDigitChar x = true) →
      d2 ≠ [] → (∀ x ∈ d2, isDigitChar x = true) →
      d3 ≠ [] → (∀ x ∈ d3, isDigitChar x = true) →
      isLowerChar c = true → (∀ x ∈ t, x ≠ '\n') →
      nvLt (mkNVersionFromAdapter a (String.mk (tripleThen d1 d2 d3 [])) none none)
        (mkNVersionFromAdapter a (String.mk (tripleThen d1 d2 d3 ('-' :: c :: t)))
          none none) = true) ∧
    (∀ (d1 d2 d3 : List Char) (c : Char) (t : List Char),
      d1 ≠ [] → (∀ x ∈ d1, isDigitChar x = true) →
      d2 ≠ [] → (∀ x ∈ d2, isDigitChar x = true) →
      d3 ≠ [] → (∀ x ∈ d3, isDigitChar x = true) →
      isLowerChar c = true → (∀ x ∈ t, x ≠ '\n') →
      (∀ x ∈ tripleThen d1 d2 d3 [], isSpaceChar x = false) →
      (∀ x ∈ tripleThen d1 d2 d3 ('-' :: c :: t), isSpaceChar x = false) →
      oldLt (mkOldVersion (String.mk (tripleThen d1 d2 d3 [])) none none)
        (mkOldVersion (String.mk (tripleThen d1 d2 d3 ('-' :: c :: t)))
          none none) = true) ∧
    (∀ (a : String) (d1 d2 d3 : List Char) (c : Char) (t : List Char)
        (c' : Char) (t' : List Char),
      d1 ≠ [] → (∀ x ∈ d1, isDigitChar x = true) →
      d2 ≠ [] → (∀ x ∈ d2, isDigitChar x = true) →
      d3 ≠ [] → (∀ x ∈ d3, isDigitChar x = true) →
      isLowerChar c = true → (∀ x ∈ t, x ≠ '\n') →
      isLowerChar c' = true → (∀ x ∈ t', x ≠ '\n') →
      nvCmp (mkNVersionFromAdapter a (String.mk (tripleThen d1 d2 d3 (c :: t))) none none)
        (mkNVersionFromAdapter a (String.mk (tripleThen d1 d2 d3 (c' :: t'))) none none)
        = strCmpL (c :: t) (c' :: t')) ∧
    oldLt (mkOldVersion "1.2.0a1" none none) (mkOldVersion "1.2.0b1" none none) = true ∧
    nvLt (mkNVersionFromAdapter "postgres" "1.2.0a1" none none)
      (mkNVersionFromAdapter "postgres" "1.2.0b1" none none) = true := by
  have hmA : ∀ (d1 d2 d3 : List Char),
      d1 ≠ [] → (∀ x ∈ d1, isDigitChar x = true) →
      d2 ≠ [] → (∀ x ∈ d2, isDigitChar x = true) →
      d3 ≠ [] → (∀ x ∈ d3, isDigitChar x = true) →
      matchSemver (tripleThen d1 d2 d3 []) = some (tripleThen d1 d2 d3 [], none) := by
    intro d1 d2 d3 h1 h1d h2 h2d h3 h3d
    have := matchSemver_triple_append d1 d2 d3 [] h1 h1d h2 h2d h3 h3d (by simp [headNot])
    simpa [preTail] using this
  have hmB : ∀ (d1 d2 d3 : List Char) (c : Char) (t : List Char),
      d1 ≠ [] → (∀ x ∈ d1, isDigitChar x = true) →
      d2 ≠ [] → (∀ x ∈ d2, isDigitChar x = true) →
      d3 ≠ [] → (∀ x ∈ d3, isDigitChar x = true) →
      isLowerChar c = true → (∀ x ∈ t, x ≠ '\n') →
      matchSemver (tripleThen d1 d2 d3 ('-' :: c :: t)) =
        some (tripleThen d1 d2 d3 [], some (c :: t)) := by
    intro d1 d2 d3 c t h1 h1d h2 h2d h3 h3d hc hnl
    have hh : headNot isDigitChar ('-' :: c :: t) := by
      simp only [headNot]
      decide
    have hm := matchSemver_triple_append d1 d2 d3 ('-' :: c :: t) h1 h1d h2 h2d h3 h3d hh
    rw [hm]
    have ht : t.takeWhile (· ≠ '\n') = t :=
      takeWhile_self_of_all (fun x hx => by simpa using hnl x hx)
    simp [preTail, hc, ht]
    intro x hx
    exact hnl x hx
  have hmC : ∀ (d1 d2 d3 : List Char) (c : Char) (t : List Char),
      d1 ≠ [] → (∀ x ∈ d1, isDigitChar x = true) →
      d2 ≠ [] → (∀ x ∈ d2, isDigitChar x = true) →
      d3 ≠ [] → (∀ x ∈ d3, isDigitChar x = true) →
      isLowerChar c = true → (∀ x ∈ t, x ≠ '\n') →
      matchSemver (tripleThen d1 d2 d3 (c :: t)) =
        some (tripleThen d1 d2 d3 [], some (c :: t)) := by
    intro d1 d2 d3 c t h1 h1d h2 h2d h3 h3d hc hnl
    have hcd : isDigitChar c = false := lower_not_digit hc
    have hh : headNot isDigitChar (c :: t) := hcd
    have hm := matchSemver_triple_append d1 d2 d3 (c :: t) h1 h1d h2 h2d h3 h3d hh
    rw [hm]
    have hcdash : ¬ (c = '-') := by
      intro h
      rw [h] at hc
      exact absurd hc (by decide)
    have ht : t.takeWhile (· ≠ '\n') = t :=
      takeWhile_self_of_all (fun x hx => by simpa using hnl x hx)
    simp [preTail, hcdash, hc, ht]
    intro x hx
    exact hnl x hx
  have tokenize_nil : tokenize [] = [] := rfl
  refine ⟨?_, ?_, ?_, by decide, by decide⟩
  · intro a d1 d2 d3 c t h1 h1d h2 h2d h3 h3d hc hnl
    have hm1 := hmA d1 d2 d3 h1 h1d h2 h2d h3 h3d
    have hm2 := hmB d1 d2 d3 c t h1 h1d h2 h2d h3 h3d hc hnl
    simp only [nvLt, mkNVersionFromAdapter, mkNVersionCore, string_mk_data, hm1, hm2,
      decide_eq_true_eq]
    simp only [nvCmp, strCmp, string_mk_data, strCmpL_refl]
    exact strCmpL_self_append (by simp)
  · intro d1 d2 d3 c t h1 h1d h2 h2d h3 h3d hc hnl hss0 hss
    have hm1 := hmA d1 d2 d3 h1 h1d h2 h2d h3 h3d
    have hm2 := hmB d1 d2 d3 c t h1 h1d h2 h2d h3 h3d hc hnl
    simp only [oldLt, mkOldVersion, pyStrip_of_no_space hss0, pyStrip_of_no_space hss,
      string_mk_data, hm1, hm2, decide_eq_true_eq]
    simp only [oldCmp]
    rw [tripleThen_append d1 d2 d3 (c :: t)]
    rw [tokenize_triple d1 d2 d3 [] h1 h1d h2 h2d h3 h3d (by simp [headNot]),
      tokenize_triple d1 d2 d3 (c :: t) h1 h1d h2 h2d h3 h3d (lower_not_digit hc)]
    have htok : tokenize (c :: t) ≠ [] := by
      rw [tokenize_lower_cons t hc]
      simp
    have hcmp := looseCmp_self_append
      (l := [.num (digitsToNat d1), .num (digitsToNat d2), .num (digitsToNat d3)])
      (r := tokenize (c :: t)) htok
    simp only [List.cons_append, List.nil_append] at hcmp
    rw [tokenize_nil, hcmp]
  · intro a d1 d2 d3 c t c' t' h1 h1d h2 h2d h3 h3d hc hnl hc' hnl'
    have hm2 := hmC d1 d2 d3 c t h1 h1d h2 h2d h3 h3d hc hnl
    have hm3 := hmC d1 d2 d3 c' t' h1 h1d h2 h2d h3 h3d hc' hnl'
    simp only [mkNVersionFromAdapter, mkNVersionCore, string_mk_data, hm2, hm3]
    simp only [nvCmp, strCmp, string_mk_data, strCmpL_refl]
    exact strCmpL_append_left (tripleThen d1 d2 d3 []) (c :: t) (c' :: t')

/-- Witness for the amended C2 at `1.2.0` versus `1.2.0-rc1` (both variants)
and at the lexical tails `a1` versus `b1`. -/
theorem C2_witness :
    nvLt (mkNVersionFromAdapter "postgres"
        (String.mk (tripleThen ['1'] ['2'] ['0'] [])) none none)
      (mkNVersionFromAdapter "postgres"
        (String.mk (tripleThen ['1'] ['2'] ['0'] ('-' :: 'r' :: ['c', '1']))) none none)
      = true ∧
    oldLt (mkOldVersion (String.mk (tripleThen ['1'] ['2'] ['0'] [])) none none)
      (mkOldVersion
        (String.mk (tripleThen ['1'] ['2'] ['0'] ('-' :: 'r' :: ['c', '1']))) none none)
      = true ∧
    nvCmp (mkNVersionFromAdapter "postgres"
        (String.mk (tripleThen ['1'] ['2'] ['0'] ('a' :: ['1']))) none none)
      (mkNVersionFromAdapter "postgres"
        (String.mk (tripleThen ['1'] ['2'] ['0'] ('b' :: ['1']))) none none)
      = strCmpL ('a' :: ['1']) ('b' :: ['1']) :=
  ⟨C2_amended.1 "postgres" ['1'] ['2'] ['0'] 'r' ['c', '1'] (by decide) (by decide)
      (by decide) (by decide) (by decide) (by decide) (by decide) (by decide),
   C2_amended.2.1 ['1'] ['2'] ['0'] 'r' ['c', '1'] (by decide) (by decide) (by decide)
      (by decide) (by decide) (by decide) (by decide) (by decide) (by decide) (by decide),
   C2_amended.2.2.1 "postgres" ['1'] ['2'] ['0'] 'a' ['1'] 'b' ['1'] (by decide)
      (by decide) (by decide) (by decide) (by decide) (by decide) (by decide) (by decide)
      (by decide) (by decide)⟩

/-! ## C8: equality versus hashing in the older `Version` -/

/-- C8 (code bug): `Version("1.2.0")` and `Version("1.02.0")` compare equal
— their `LooseVersion` component lists are both `[1, 2, 0]` — yet
`__hash__` hashes the distinct strings `"1.2.0"` and `"1.02.0"`, so the two
equal versions hash differently, breaking the hash/equality contract that
set membership relies on (the comment in `Version.__init__` says comparison
and hashing are both standardized on the PyPI version precisely so that this
cannot happen). -/
theorem C8_eq_hash_violation :
    oldEq (mkOldVersion "1.2.0" none none) (mkOldVersion "1.02.0" none none) = true ∧
    oldCmp (mkOldVersion "1.2.0" none none) (mkOldVersion "1.02.0" none none) = .eq ∧
    oldHash (mkOldVersion "1.2.0" none none) ≠
      oldHash (mkOldVersion "1.02.0" none none) ∧
    (mkOldVersion "1.2.0" none none).components =
      (mkOldVersion "1.02.0" none none).components := by
  decide

/-- The `source` attribute assigned by the newer `Version.__init__` is the
`source` argument (the property setter stores it unchanged). -/
theorem mkNVersionCore_source (ps n a p0 : String) (src desc : Option String) :
    (mkNVersionCore ps n a p0 src desc).source = src := by
  unfold mkNVersionCore
  cases h : matchSemver p0.data with
  | none => rfl
  | some pr =>
    cases pr with
    | mk ver pre => cases pre <;> rfl

theorem mkNVersionFromAdapter_source (a v : String) (src desc : Option String) :
    (mkNVersionFromAdapter a v src desc).source = src := by
  unfold mkNVersionFromAdapter
  exact mkNVersionCore_source _ _ _ _ _ _

/-! ## C10: the adapter_type parameter of the older `get_version` -/

/-- C10 (confirmed): the `adapter_type` parameter of the older variant's
`get_version` has no influence on its result: line 319 unconditionally
overwrites it with the adapter type recomputed from the project file before
any stage runs, so any two argument values yield the same outcome on every
environment. -/
theorem C10_adapter_param_ignored (env : Env) (a b : Option String) :
    get_version_old env a = get_version_old env b := rfl

/-! ## C9: the `None.startswith` crash in the newer local-marker guard -/

/-- C9 (confirmed): in the newer variant every version successfully read by
`read_version_file` carries `source = None` (only `source_description` is
set), and when a project directory is known and a local marker file is
found, `get_version`'s guard `local_version.source.startswith(...)`
dereferences `None` and raises `AttributeError` instead of producing a
resolution decision. -/
theorem C9_local_guard_crash :
    (∀ (env : Env) (p : String) (at_ : Option String) (desc : String) (v : NVersion),
      read_version_file_new env p at_ desc = .ok (some v) → v.source = none) ∧
    (∀ (env : Env) (x : Option String) (d mp : String) (raw : String)
        (nm vr : List Char),
      env.project_directory = some d → d ≠ "" →
      env.env_vars.lookup "DBT_VERSION" = none →
      find_file_along_working_path env ".dbt_version" = some mp →
      env.files.lookup mp = some raw →
      matchPip (pyStrip raw).data = some (nm, vr) →
      get_version_new env x = .error .attributeError) := by
  constructor
  · intro env p at_ desc v hread
    simp only [read_version_file_new] at hread
    cases hmp : matchPip (pyStrip (fileContent env p)).data with
    | some pr =>
      rw [hmp] at hread
      simp only [mkNVersionFromPip, hmp, Except.map] at hread
      cases hread
      exact mkNVersionCore_source _ _ _ _ _ _
    | none =>
      rw [hmp] at hread
      by_cases hb : matchBare (pyStrip (fileContent env p)).data
      · rw [if_pos hb] at hread
        by_cases hat : pyTruthy at_
        · rw [if_pos hat] at hread
          cases hread
          exact mkNVersionFromAdapter_source _ _ _ _
        · rw [if_neg hat] at hread
          cases hread
      · rw [if_neg hb] at hread
        cases hread
  · intro env x d mp raw nm vr hpd hd hshell hfind hraw hpip
    have hlocal : try_get_local_version_new env
        (if pyTruthy x then x else tryGetProjectAdapterType env) =
        (mkNVersionFromPip (pyStrip raw) none
          (some ("set by local version file " ++ mp))).map some := by
      simp only [try_get_local_version_new, hfind, read_version_file_new, fileContent,
        hraw, Option.getD, hpip]
    have hsrc : ∀ z, mkNVersionFromPip (pyStrip raw) none
        (some ("set by local version file " ++ mp)) = .ok z → z.source = none := by
      intro z hz
      simp only [mkNVersionFromPip, hpip] at hz
      cases hz
      exact mkNVersionCore_source _ _ _ _ _ _
    have hshell' : try_get_shell_version_new env
        (if pyTruthy x then x else tryGetProjectAdapterType env) = .ok none := by
      simp only [try_get_shell_version_new, hshell]
    cases hz : mkNVersionFromPip (pyStrip raw) none
        (some ("set by local version file " ++ mp)) with
    | error e =>
      simp only [mkNVersionFromPip, hpip] at hz
      cases hz
    | ok z =>
      have hguard : localGuardNew env.project_directory z = .error .attributeError := by
        simp only [localGuardNew, hpd, hsrc z hz]
        rw [if_neg (by simpa using hd)]
      simp only [get_version_new, hshell', hlocal, hz, Except.map, hguard]

/-- Witness for C9: the crash is reachable on a concrete environment. -/
theorem C9_witness : get_version_new c9Env none = .error .attributeError :=
  C9_local_guard_crash.2 c9Env none "/proj" "/proj/.dbt_version" "dbt-postgres==1.0.0"
    "dbt-postgres".data "1.0.0".data (by decide) (by decide) (by decide) (by decide)
    (by decide) (by decide)

/-! ## C3: the shell override versus the adapter-kind gate -/


/-- C3 (counterexample): with `DBT_VERSION` set to the well-formed version
`1.0.0`, the older variant's `get_version` returns `None` (unresolved)
rather than the parsed shell version, because the adapter-kind gate runs
before the shell stage and no adapter type is determinable. -/
theorem C3_counterexample :
    c3Env.env_vars.lookup "DBT_VERSION" = some "1.0.0" ∧
    matchBare "1.0.0".data = true ∧
    get_version_old c3Env none = .ok none := by
  refine ⟨rfl, by decide, rfl⟩

/-- C3 (amended): in the older variant the adapter-kind gate precedes every
stage — `get_version` returns `None` whenever no adapter type is
determinable, even with `DBT_VERSION` set — and when the adapter type is
determinable the shell stage returns the parsed `DBT_VERSION` immediately
(source `DBT_VERSION`, without consulting project constraints, which do not
appear in the hypotheses).  In the newer variant a pip-specifier
`DBT_VERSION` is returned immediately regardless of the adapter type (with
no provenance attached), while a bare-version `DBT_VERSION` makes the shell
stage itself yield nothing when no adapter type is known. -/
theorem C3_amended :
    (∀ (env : Env) (x : Option String),
      pyTruthy (tryGetProjectAdapterType env) = false →
      get_version_old env x = .ok none) ∧
    (∀ (env : Env) (x : Option String) (a v : String),
      tryGetProjectAdapterType env = some a → a ≠ "" →
      env.env_vars.lookup "DBT_VERSION" = some v →
      get_version_old env x =
        .ok (some (mkNVersionFromAdapter a v (some "DBT_VERSION") none))) ∧
    (∀ (env : Env) (x : Option String) (v : String) (pr : List Char × List Char),
      env.env_vars.lookup "DBT_VERSION" = some v →
      matchPip v.data = some pr →
      get_version_new env x = (mkNVersionFromPip v none none).map some) ∧
    (∀ (env : Env) (at_ : Option String) (v : String),
      env.env_vars.lookup "DBT_VERSION" = some v →
      matchPip v.data = none → matchBare v.data = true →
      pyTruthy at_ = false →
      try_get_shell_version_new env at_ = .ok none) := by
  refine ⟨?_, ?_, ?_, ?_⟩
  · intro env x h
    simp only [get_version_old, h, Bool.not_false, if_true]
  · intro env x a v ha hne hv
    have hta : pyTruthy (some a) = true := by
      simpa [pyTruthy] using hne
    have hshell : try_get_shell_version_old env a =
        some (mkNVersionFromAdapter a v (some "DBT_VERSION") none) := by
      simp only [try_get_shell_version_old, hv, Option.map]
    simp only [get_version_old, ha, Option.getD_some, hta, Bool.not_true,
      Bool.false_eq_true, if_false, hshell]
  · intro env x v pr hv hpip
    have hshell : try_get_shell_version_new env
        (if pyTruthy x then x else tryGetProjectAdapterType env) =
        (mkNVersionFromPip v none none).map some := by
      simp only [try_get_shell_version_new, hv, hpip]
    cases hz : mkNVersionFromPip v none none with
    | error e =>
      simp only [mkNVersionFromPip, hpip] at hz
      cases hz
    | ok z =>
      rw [hz] at hshell
      simp only [get_version_new, hshell, Except.map, hz]
  · intro env at_ v hv hpip hbare hat
    simp only [try_get_shell_version_new, hv, hpip, hbare, hat, if_true,
      Bool.false_eq_true, if_false]


/-- Witness for the amended C3: with the adapter type determinable, the
older variant returns the shell version immediately. -/
theorem C3_witness :
    get_version_old c3bEnv none =
      .ok (some (mkNVersionFromAdapter "postgres" "1.0.0" (some "DBT_VERSION") none)) :=
  C3_amended.2.1 c3bEnv none "postgres" "1.0.0" (by decide) (by decide) (by decide)

/-! ## C4: the project-root guard on local markers -/



/-- C4 (counterexample): the local marker `/a/.dbt_version` does NOT lie
inside the project directory `/a/.dbt`, yet the older variant's
`get_version` returns it at the local-marker stage, because the guard is the
raw string-prefix test `local_version.source.startswith(project_directory)`
and `"/a/.dbt_version"` starts with `"/a/.dbt"`. -/
theorem C4_counterexample :
    c4Env.project_directory = some "/a/.dbt" ∧
    find_file_along_working_path c4Env ".dbt_version" = some "/a/.dbt_version" ∧
    pathInsideDirectory "/a/.dbt_version" "/a/.dbt" = false ∧
    strStartsWith "/a/.dbt_version" "/a/.dbt" = true ∧
    get_version_old c4Env none =
      .ok (some (mkNVersionFromAdapter "postgres" "1.0.0" (some "/a/.dbt_version")
        none)) := by
  refine ⟨rfl, rfl, by decide, by decide, rfl⟩

/-- C4 (amended): at the local-marker stage the older variant returns a
found marker iff the project directory is unknown (falsy) or the marker's
path passes the raw string-prefix test against the project directory — a
test that also admits sibling paths extending the directory name without a
separator; when the prefix test fails, resolution falls through to the
project stage.  In the newer variant, with no (truthy) project directory a
found pip-specifier marker is returned. -/
theorem C4_amended :
    (∀ (env : Env) (x : Option String) (a : String) (lv : NVersion),
      tryGetProjectAdapterType env = some a → a ≠ "" →
      env.env_vars.lookup "DBT_VERSION" = none →
      try_get_local_version_old env a = some lv →
      pyTruthy env.project_directory = false →
      get_version_old env x = .ok (some lv)) ∧
    (∀ (env : Env) (x : Option String) (a d s : String) (lv : NVersion),
      tryGetProjectAdapterType env = some a → a ≠ "" →
      env.env_vars.lookup "DBT_VERSION" = none →
      try_get_local_version_old env a = some lv →
      env.project_directory = some d → d ≠ "" →
      lv.source = some s → strStartsWith s d = true →
      get_version_old env x = .ok (some lv)) ∧
    (∀ (env : Env) (x : Option String) (a d s : String) (lv pv : NVersion),
      tryGetProjectAdapterType env = some a → a ≠ "" →
      env.env_vars.lookup "DBT_VERSION" = none →
      try_get_local_version_old env a = some lv →
      env.project_directory = some d → d ≠ "" →
      lv.source = some s → strStartsWith s d = false →
      try_get_project_version_old env (some lv) a = some pv →
      get_version_old env x = .ok (some pv)) ∧
    (∀ (env : Env) (x : Option String) (mp raw : String) (nm vr : List Char),
      env.env_vars.lookup "DBT_VERSION" = none →
      find_file_along_working_path env ".dbt_version" = some mp →
      env.files.lookup mp = some raw →
      matchPip (pyStrip raw).data = some (nm, vr) →
      pyTruthy env.project_directory = false →
      get_version_new env x =
        (mkNVersionFromPip (pyStrip raw) none
          (some ("set by local version file " ++ mp))).map some) := by
  have hgate : ∀ (a : String), a ≠ "" → pyTruthy (some a) = true := by
    intro a ha
    simpa [pyTruthy] using ha
  have hshellnone : ∀ (env : Env) (a : String),
      env.env_vars.lookup "DBT_VERSION" = none →
      try_get_shell_version_old env a = none := by
    intro env a h
    simp only [try_get_shell_version_old, h, Option.map]
  refine ⟨?_, ?_, ?_, ?_⟩
  · intro env x a lv ha hne hs hl hpd
    have hguard : localGuardOld env.project_directory (some lv) = true := by
      cases hp : env.project_directory with
      | none => simp [localGuardOld, hp]
      | some d =>
        have hd0 : d = "" := by
          rw [hp] at hpd
          simpa [pyTruthy] using hpd
        simp [localGuardOld, hp, hd0]
    simp only [get_version_old, ha, Option.getD_some, hgate a hne, Bool.not_true,
      Bool.false_eq_true, if_false, hshellnone env a hs, hl, hguard, if_true]
  · intro env x a d s lv ha hne hs hl hpd hd hsrc hpre
    have hguard : localGuardOld env.project_directory (some lv) = true := by
      simp only [localGuardOld, hpd, hsrc]
      rw [if_neg (by simpa using hd)]
      exact hpre
    simp only [get_version_old, ha, Option.getD_some, hgate a hne, Bool.not_true,
      Bool.false_eq_true, if_false, hshellnone env a hs, hl, hguard, if_true]
  · intro env x a d s lv pv ha hne hs hl hpd hd hsrc hpre hproj
    have hguard : localGuardOld env.project_directory (some lv) = false := by
      simp only [localGuardOld, hpd, hsrc]
      rw [if_neg (by simpa using hd)]
      exact hpre
    have hpdt : pyTruthy env.project_directory = true := by
      rw [hpd]
      simpa [pyTruthy] using hd
    simp only [get_version_old, ha, Option.getD_some, hgate a hne, Bool.not_true,
      Bool.false_eq_true, if_false, hshellnone env a hs, hguard, hpdt, if_true,
      Bool.and_false, hl, Option.some_orElse, hproj]
  · intro env x mp raw nm vr hs hfind hraw hpip
    intro hpd
    have hshell : try_get_shell_version_new env
        (if pyTruthy x then x else tryGetProjectAdapterType env) = .ok none := by
      simp only [try_get_shell_version_new, hs]
    have hlocal : try_get_local_version_new env
        (if pyTruthy x then x else tryGetProjectAdapterType env) =
        (mkNVersionFromPip (pyStrip raw) none
          (some ("set by local version file " ++ mp))).map some := by
      simp only [try_get_local_version_new, hfind, read_version_file_new, fileContent,
        hraw, Option.getD, hpip]
    cases hz : mkNVersionFromPip (pyStrip raw) none
        (some ("set by local version file " ++ mp)) with
    | error e =>
      simp only [mkNVersionFromPip, hpip] at hz
      cases hz
    | ok z =>
      rw [hz] at hlocal
      have hguard : localGuardNew env.project_directory z = .ok true := by
        cases hp : env.project_directory with
        | none => simp [localGuardNew, hp]
        | some d =>
          have hd0 : d = "" := by
            rw [hp] at hpd
            simpa [pyTruthy] using hpd
          simp [localGuardNew, hp, hd0]
      simp only [get_version_new, hshell, hlocal, Except.map, hguard, hz]


/-- Witness for the amended C4: a local marker inside the project directory
is returned at the local-marker stage. -/
theorem C4_witness :
    get_version_old c4bEnv none =
      .ok (some (mkNVersionFromAdapter "postgres" "1.0.0"
        (some "/a/proj/.dbt_version") none)) :=
  C4_amended.2.1 c4bEnv none "postgres" "/a/proj" "/a/proj/.dbt_version"
    (mkNVersionFromAdapter "postgres" "1.0.0" (some "/a/proj/.dbt_version") none)
    (by decide) (by decide) (by decide) (by decide) (by decide) (by decide)
    (by decide) (by decide)

/-! ## C1: the no-compatible-version outcome is not terminal -/


/-- C1 (counterexample): the project declares `>=2.0.0`, no installed or
installable candidate satisfies it, the project stage accordingly yields no
version — and `get_version` then falls back to the maximum installed
version `1.0.0` instead of stopping with the no-compatible-version
outcome. -/
theorem C1_counterexample :
    tryGetProjectVersionRequirements c1Env c1Env.project_file "postgres" ≠ [] ∧
    try_get_max_compatible_version (c1Env.installed_versions "postgres")
      (tryGetProjectVersionRequirements c1Env c1Env.project_file "postgres") = none ∧
    try_get_max_compatible_version (c1Env.installable_versions "postgres")
      (tryGetProjectVersionRequirements c1Env c1Env.project_file "postgres") = none ∧
    try_get_project_version_old c1Env none "postgres" = none ∧
    get_version_old c1Env none =
      .ok (some (mkNVersionFromAdapter "postgres" "1.0.0" none
        (some "max installed version for current adapter"))) := by
  refine ⟨by decide, rfl, rfl, rfl, rfl⟩

/-- When the project has requirements that neither the preferred version nor
any installed or installable candidate satisfies (and no package project
files contribute), `try_get_project_version` returns `None`. -/
theorem try_get_project_version_old_none (env : Env) (pref : Option NVersion)
    (a : String) (reqs : List VersionRequirement)
    (hreq : tryGetProjectVersionRequirements env env.project_file a = reqs)
    (hne : reqs ≠ [])
    (hpkg : env.package_project_files = [])
    (hpref : ∀ p, pref = some p → reqs.all (fun r => is_compatible_with r p) = false)
    (hinst : try_get_max_compatible_version (env.installed_versions a) reqs = none)
    (havail : try_get_max_compatible_version (env.installable_versions a) reqs = none) :
    try_get_project_version_old env pref a = none := by
  have hne' : reqs.isEmpty = false := by
    simpa [List.isEmpty_iff] using hne
  cases pref with
  | none =>
    simp only [try_get_project_version_old, hreq, hne', Bool.false_eq_true, if_false,
      hpkg, List.map_nil, List.filter_nil, List.flatten_nil, List.append_nil,
      hinst, havail, List.isEmpty_nil, Bool.not_true]
  | some p =>
    simp only [try_get_project_version_old, hreq, hne', Bool.false_eq_true, if_false,
      hpkg, List.map_nil, List.filter_nil, List.flatten_nil, List.append_nil,
      hpref p rfl, hinst, havail, List.isEmpty_nil, Bool.not_true]

/-- C1 (amended): when the project's requirements are satisfied by no
candidate, the project stage returns `None` (after logging the warning) and
`get_version` falls back: it returns the preferred local pin when one was
found (first conjunct), and with no preferred version it returns the
maximum installed version re-labelled "max installed version for current
adapter" (second conjunct) — the no-compatible-version outcome is papered
over rather than terminal. -/
theorem C1_amended :
    (∀ (env : Env) (x : Option String) (a d s : String) (p : NVersion)
        (reqs : List VersionRequirement),
      tryGetProjectAdapterType env = some a → a ≠ "" →
      env.env_vars.lookup "DBT_VERSION" = none →
      try_get_local_version_old env a = some p →
      env.project_directory = some d → d ≠ "" →
      p.source = some s → strStartsWith s d = false →
      tryGetProjectVersionRequirements env env.project_file a = reqs → reqs ≠ [] →
      env.package_project_files = [] →
      reqs.all (fun r => is_compatible_with r p) = false →
      try_get_max_compatible_version (env.installed_versions a) reqs = none →
      try_get_max_compatible_version (env.installable_versions a) reqs = none →
      get_version_old env x = .ok (some p)) ∧
    (∀ (env : Env) (x : Option String) (a d : String) (m : NVersion)
        (reqs : List VersionRequirement),
      tryGetProjectAdapterType env = some a → a ≠ "" →
      env.env_vars.lookup "DBT_VERSION" = none →
      try_get_local_version_old env a = none →
      try_get_global_version_old env a = none →
      env.project_directory = some d → d ≠ "" →
      tryGetProjectVersionRequirements env env.project_file a = reqs → reqs ≠ [] →
      env.package_project_files = [] →
      try_get_max_compatible_version (env.installed_versions a) reqs = none →
      try_get_max_compatible_version (env.installable_versions a) reqs = none →
      env.installed_versions a ≠ [] →
      get_max_version (env.installed_versions a) = .ok m →
      get_version_old env x = .ok (some (mkNVersionFromAdapter a m.pypi_version none
        (some "max installed version for current adapter")))) := by
  have hgate : ∀ (a : String), a ≠ "" → pyTruthy (some a) = true := by
    intro a ha
    simpa [pyTruthy] using ha
  have hshellnone : ∀ (env : Env) (a : String),
      env.env_vars.lookup "DBT_VERSION" = none →
      try_get_shell_version_old env a = none := by
    intro env a h
    simp only [try_get_shell_version_old, h, Option.map]
  constructor
  · intro env x a d s p reqs ha hane hs hl hpd hd hsrc hpre hreq hrne hpkg hinc
      hinst havail
    have hguard : localGuardOld env.project_directory (some p) = false := by
      simp only [localGuardOld, hpd, hsrc]
      rw [if_neg (by simpa using hd)]
      exact hpre
    have hpdt : pyTruthy env.project_directory = true := by
      rw [hpd]
      simpa [pyTruthy] using hd
    have hproj : try_get_project_version_old env (some p) a = none :=
      try_get_project_version_old_none env (some p) a reqs hreq hrne hpkg
        (fun q hq => by cases hq; exact hinc) hinst havail
    simp only [get_version_old, ha, Option.getD_some, hgate a hane, Bool.not_true,
      Bool.false_eq_true, if_false, hshellnone env a hs, hl, hguard, hpdt,
      Bool.and_false, if_true, Option.some_orElse, hproj, get_version_old_tail]
  · intro env x a d m reqs ha hane hs hl hg hpd hd hreq hrne hpkg hinst havail
      hine hmax
    have hguard : localGuardOld env.project_directory none = false := by
      simp [localGuardOld]
    have hpdt : pyTruthy env.project_directory = true := by
      rw [hpd]
      simpa [pyTruthy] using hd
    have hproj : try_get_project_version_old env none a = none :=
      try_get_project_version_old_none env none a reqs hreq hrne hpkg
        (fun q hq => by cases hq) hinst havail
    have hine' : (env.installed_versions a).isEmpty = false := by
      simpa [List.isEmpty_iff] using hine
    simp only [get_version_old, ha, Option.getD_some, hgate a hane, Bool.not_true,
      Bool.false_eq_true, if_false, hshellnone env a hs, hl, hg, hguard, hpdt,
      Bool.and_false, if_true, Option.none_orElse, hproj, get_version_old_tail,
      Option.isSome_none, hine', Bool.not_false, hmax]


/-- Witness for the amended C1: the rejected preferred pin `1.0.0` is
returned although the project requires `>=2.0.0`. -/
theorem C1_witness :
    get_version_old c1bEnv none =
      .ok (some (mkNVersionFromAdapter "postgres" "1.0.0" (some "/a/.dbt_version")
        none)) :=
  C1_amended.1 c1bEnv none "postgres" "/a/b" "/a/.dbt_version"
    (mkNVersionFromAdapter "postgres" "1.0.0" (some "/a/.dbt_version") none)
    ((mkVersionRequirement "postgres" ">=2.0.0" "/a/b/dbt_project.yml").toList)
    (by decide) (by decide) (by decide) (by decide) (by decide) (by decide)
    (by decide) (by decide) (by decide) (by decide) (by decide) (by decide)
    (by decide) (by decide)

/-! ## C7: there is no ParseError in the older variant -/

theorem dotPlus_cons_isSome {c : Char} (t : List Char) (hc : c ≠ '\n') :
    (dotPlus (c :: t)).isSome = true := by
  have hstep : ((c :: t).takeWhile (· ≠ '\n')) = c :: (t.takeWhile (· ≠ '\n')) := by
    simp [List.takeWhile_cons, hc]
  simp [dotPlus, hstep, hc]

/-- The requirement pattern matches every non-empty single-line string: the
optional operator group backtracks until the `.+` version group can take at
least one character. -/
theorem parseReq_isSome (l : List Char) (h : l ≠ []) (hnl : ∀ c ∈ l, c ≠ '\n') :
    (parseReq l).isSome = true := by
  match l with
  | [] => exact absurd rfl h
  | [c1] =>
    have h1 : c1 ≠ '\n' := hnl c1 (by simp)
    simp only [parseReq]
    cases hdp : dotPlus [c1] with
    | none =>
      have hsome := dotPlus_cons_isSome [] h1
      rw [hdp] at hsome
      simp at hsome
    | some v => simp
  | c1 :: c2 :: rest =>
    have h1 : c1 ≠ '\n' := hnl c1 (by simp)
    have h2 : c2 ≠ '\n' := hnl c2 (by simp)
    simp only [parseReq]
    split_ifs
    · cases hdp : dotPlus rest with
      | some v => simp
      | none =>
        cases hdp2 : dotPlus (c2 :: rest) with
        | some v => simp
        | none =>
          have hsome := dotPlus_cons_isSome rest h2
          rw [hdp2] at hsome
          simp at hsome
    · cases hdp2 : dotPlus (c2 :: rest) with
      | some v => simp
      | none =>
        have hsome := dotPlus_cons_isSome rest h2
        rw [hdp2] at hsome
        simp at hsome
    · cases hdp : dotPlus (c1 :: c2 :: rest) with
      | some v => simp
      | none =>
        have hsome := dotPlus_cons_isSome (c2 :: rest) h1
        rw [hdp] at hsome
        simp at hsome


/-- C7 (counterexample): the requirement `~=1.0.0` — whose operator is not
one of the five recognized symbols — parses WITHOUT error in the older
variant: the operator group defaults to `==` and the whole text becomes a
non-semantic version.  A malformed `DBT_VERSION` does not stop the older
variant's resolution and is not skipped: the shell stage wraps it in a
non-semantic `Version` and `get_version` returns it as the resolved
version.  Only the newer variant raises (`DbtenvError`). -/
theorem C7_counterexample :
    (mkVersionRequirement "postgres" "~=1.0.0" "dbt_project.yml").isSome = true ∧
    (mkVersionRequirement "postgres" "~=1.0.0" "dbt_project.yml").map
      (fun r => r.operator) = some "==" ∧
    (mkVersionRequirement "postgres" "~=1.0.0" "dbt_project.yml").map
      (fun r => r.version.is_semantic) = some false ∧
    try_get_shell_version_old c7Env "postgres" =
      some (mkNVersionFromAdapter "postgres" "garbage" (some "DBT_VERSION") none) ∧
    (mkNVersionFromAdapter "postgres" "garbage" (some "DBT_VERSION") none).is_semantic
      = false ∧
    get_version_old c7Env none =
      .ok (some (mkNVersionFromAdapter "postgres" "garbage" (some "DBT_VERSION")
        none)) ∧
    try_get_shell_version_new c7Env (some "postgres") =
      .error (.dbtenvError "Invalid value in DBT_VERSION environment variable: garbage")
      := by
  refine ⟨by decide, by decide, by decide, rfl, by decide, rfl, rfl⟩

/-- C7 (amended): in the older variant no parse failure is possible for
non-empty single-line text: every such requirement string parses (an
unrecognized leading operator is folded into a — possibly non-semantic —
version with the default `==` operator), and every set `DBT_VERSION` value,
malformed or not, is returned by the shell stage as a `Version`.  Only the
newer variant stops resolution on a malformed `DBT_VERSION`, raising
`DbtenvError`. -/
theorem C7_amended :
    (∀ (a s src : String), s.data ≠ [] → (∀ c ∈ s.data, c ≠ '\n') →
      (mkVersionRequirement a s src).isSome = true) ∧
    (∀ (env : Env) (a v : String),
      env.env_vars.lookup "DBT_VERSION" = some v →
      try_get_shell_version_old env a =
        some (mkNVersionFromAdapter a v (some "DBT_VERSION") none)) ∧
    (∀ (env : Env) (at_ : Option String) (v : String),
      env.env_vars.lookup "DBT_VERSION" = some v →
      matchPip v.data = none → matchBare v.data = false →
      try_get_shell_version_new env at_ =
        .error (.dbtenvError ("Invalid value in DBT_VERSION environment variable: "
          ++ v))) := by
  refine ⟨?_, ?_, ?_⟩
  · intro a s src hne hnl
    simp only [mkVersionRequirement]
    cases hp : parseReq s.data with
    | none =>
      exact absurd (parseReq_isSome s.data hne hnl) (by simp [hp])
    | some pr => simp
  · intro env a v hv
    simp only [try_get_shell_version_old, hv, Option.map]
  · intro env at_ v hv hpip hbare
    simp only [try_get_shell_version_new, hv, hpip, hbare, Bool.false_eq_true,
      if_false]

/-- Witness for the amended C7 at the inputs of the counterexample. -/
theorem C7_witness :
    (mkVersionRequirement "postgres" "~=1.0.0" "dbt_project.yml").isSome = true ∧
    try_get_shell_version_old c7Env "postgres" =
      some (mkNVersionFromAdapter "postgres" "garbage" (some "DBT_VERSION") none) ∧
    try_get_shell_version_new c7Env (some "postgres") =
      .error (.dbtenvError "Invalid value in DBT_VERSION environment variable: garbage")
      :=
  ⟨C7_amended.1 "postgres" "~=1.0.0" "dbt_project.yml" (by decide) (by decide),
   C7_amended.2.1 c7Env "postgres" "garbage" (by decide),
   C7_amended.2.2 c7Env (some "postgres") "garbage" (by decide) (by decide) (by decide)⟩

end Dbtenv
